import Mathlib

/-!
# TradingBot — Signal Generation & Evaluation Engine: shallow embedding

This file is a shallow embedding in Lean 4 of the numeric core of the
TradingBot repository (TypeScript), together with theorems settling the
frozen claims about it.

Conventions of the embedding:
* JavaScript numbers are modelled as `ℚ`.  A slot that may hold `NaN`
  (for example the leading entries of an indicator series, where the code
  pushes `NaN` and downstream code tests `Number.isFinite`) is modelled
  as `Option ℚ`, with `none` standing for a non-finite value.
* Fallible lookups (`array[i]`) are modelled with `List.getD` / `List.get?`
  exactly where the source is known to stay in bounds, mirroring the
  source's index arithmetic.
* Mutation loops are modelled as folds / structural recursion carrying the
  mutated state explicitly.
* Candle series are `List Candle`; per the repository data model candle
  `time`s are strictly increasing within a series, which theorems assume
  explicitly where they need it.
-/

namespace TradingBot

/-- One OHLCV bar (`Candle` in `src/types.ts`). -/
structure Candle where
  time : ℚ
  open_ : ℚ
  high : ℚ
  low : ℚ
  close : ℚ
  volume : ℚ
deriving DecidableEq, Repr, Inhabited

/-- `Math.min` / `Math.max`-style clamp used throughout: `min (max v lo) hi`. -/
def jsClamp (v lo hi : ℚ) : ℚ := min (max v lo) hi

/-- `average` from `src/utils/indicators.ts`: mean of a list, `0` on empty. -/
def average (values : List ℚ) : ℚ :=
  if values = [] then 0 else values.sum / values.length

/-- The per-bar true ranges as computed at the top of `atr`
(`src/utils/indicators.ts`): `tr_i = max(h-l, |h-prevClose|, |l-prevClose|)`
with `prevClose` defaulting to the bar's own close on the first bar. -/
def trueRanges (candles : List Candle) : List ℚ :=
  (List.range candles.length).map (fun i =>
    let curr := candles.getD i default
    let prevClose := match candles.get? (i - 1) with
      | some prev => if i = 0 then curr.close else prev.close
      | none => curr.close
    max (curr.high - curr.low)
      (max (|curr.high - prevClose|) (|curr.low - prevClose|)))

/-- The `trs.forEach` accumulation loop inside `atr`: walks the true-range
list with the running index and the previous output value (`none` = `NaN`),
producing the Wilder-smoothed series.  The seed at index `period` is the
simple average of `trs.slice(1, period+1)`, passed in as `seed`. -/
def atrLoop (period : ℕ) (seed : ℚ) : ℕ → Option ℚ → List ℚ → List (Option ℚ)
  | _, _, [] => []
  | idx, prev, tr :: rest =>
    if idx < period then
      none :: atrLoop period seed (idx + 1) prev rest
    else if idx = period then
      some seed :: atrLoop period seed (idx + 1) (some seed) rest
    else
      match prev with
      | none => none :: atrLoop period seed (idx + 1) none rest
      | some p =>
        let next := (p * ((period : ℚ) - 1) + tr) / (period : ℚ)
        some next :: atrLoop period seed (idx + 1) (some next) rest

/-- `atr` from `src/utils/indicators.ts`: Wilder-smoothed average true
range; entries are `none` (`NaN`) until the seed index `period`. -/
def atr (candles : List Candle) (period : ℕ) : List (Option ℚ) :=
  if candles = [] then []
  else
    let trs := trueRanges candles
    atrLoop period (average ((trs.drop 1).take period)) 0 none trs

/-- `QualityGateConfig` from `src/types.ts` (threshold set governing signal
admission). -/
structure QualityGateConfig where
  maxStopPct : ℚ
  minRR : ℚ
  atrPctMin : ℚ
  atrPctMax : ℚ
  requireFreshZone : Bool
  cooldownBars : ℕ
  scoreMin : ℚ
  stopAtrMult : ℚ
deriving DecidableEq, Repr

/-- `median` from `src/services/dynamicGate.ts`: sort ascending, midpoint
average on even length; `none` models the `NaN` returned on an empty list. -/
def median (values : List ℚ) : Option ℚ :=
  if values = [] then none
  else
    let sorted := List.insertionSort (· ≤ ·) values
    let mid := values.length / 2
    if values.length % 2 = 0 then
      some ((sorted.getD (mid - 1) 0 + sorted.getD mid 0) / 2)
    else some (sorted.getD mid 0)

/-- `clamp` from `src/services/dynamicGate.ts` applied to a possibly
non-finite value: a non-finite input (`none`) yields the lower bound. -/
def clampOpt (v : Option ℚ) (lo hi : ℚ) : ℚ :=
  match v with
  | none => lo
  | some x => jsClamp x lo hi

/-- The ATR% series accumulation loop in `buildDynamicGate`
(`src/services/dynamicGate.ts`): for each bar with a finite ATR value and a
positive close, push `atr/close*100`. -/
def atrPctSeries (candles : List Candle) (atrPeriod : ℕ) : List ℚ :=
  let atrValues := atr candles atrPeriod
  (List.range candles.length).filterMap (fun i =>
    let c := candles.getD i default
    match atrValues.getD i none with
    | none => none
    | some a => if c.close ≤ 0 then none else some ((a / c.close) * 100))

/-- JavaScript `slice(-n)` on a list: the last `n` elements (`slice(-0)` is
the whole list). -/
def jsSliceNeg (l : List ℚ) (n : ℕ) : List ℚ :=
  if n = 0 then l else l.drop (l.length - n)

/-- The trailing ATR% window `recent` used by `buildDynamicGate`: the series
(all entries finite by construction, so the `filter(Number.isFinite)` is the
identity) restricted to the last `lookback` samples. -/
def recentAtrPct (candles : List Candle) (atrPeriod lookback : ℕ) : List ℚ :=
  jsSliceNeg ((atrPctSeries candles atrPeriod).filter (fun _ => true)) lookback

/-- `DynamicGateInfo` from `src/services/dynamicGate.ts`; the median fields
may be `NaN` (`none`). -/
structure DynamicGateInfo where
  atrMedianPct : Option ℚ
  atrCurrentPct : Option ℚ
  ratio : ℚ
  lookback : ℕ
deriving DecidableEq, Repr

/-- Return value of `buildDynamicGate`. -/
structure DynamicGateResult where
  gate : QualityGateConfig
  info : Option DynamicGateInfo
deriving DecidableEq, Repr

/-- `buildDynamicGate` from `src/services/dynamicGate.ts`: rescale the base
gate's thresholds by the ratio of the trailing ATR% median to the midpoint of
the base ATR band, clamped to `[0.6, 1.6]` and to absolute bounds per field;
`minRR` is nudged by ±5% according to `ratio ≥ 1`. -/
def buildDynamicGate (candles : List Candle) (baseGate : QualityGateConfig)
    (atrPeriod lookback : ℕ) (enabled : Bool) : DynamicGateResult :=
  if !enabled then ⟨baseGate, none⟩
  else if candles.length < min 80 lookback then ⟨baseGate, none⟩
  else
    let recent := recentAtrPct candles atrPeriod lookback
    if recent.length < min 50 (lookback / 2) then ⟨baseGate, none⟩
    else
      let atrMedian := median recent
      let atrCurrent := match recent.getLast? with
        | some x => some x
        | none => atrMedian
      let baseMid := (baseGate.atrPctMin + baseGate.atrPctMax) / 2
      if baseMid ≤ 0 then ⟨baseGate, none⟩
      else
        let ratio := clampOpt (atrMedian.map (· / baseMid)) 0.6 1.6
        let atrPctMin := jsClamp (baseGate.atrPctMin * ratio) 0.01 10
        let atrPctMax0 := jsClamp (baseGate.atrPctMax * ratio) 0.02 20
        let atrPctMax := if atrPctMax0 < atrPctMin then atrPctMin * 1.1 else atrPctMax0
        let maxStopPct := jsClamp (baseGate.maxStopPct * ratio)
          (baseGate.maxStopPct * 0.6) (baseGate.maxStopPct * 2)
        let stopAtrMult := jsClamp (baseGate.stopAtrMult * ratio)
          (baseGate.stopAtrMult * 0.6) (baseGate.stopAtrMult * 2)
        let minRR := jsClamp (baseGate.minRR * (if ratio ≥ 1 then 1.05 else 0.95))
          (baseGate.minRR * 0.8) (baseGate.minRR * 1.2)
        ⟨{ baseGate with
            atrPctMin := atrPctMin, atrPctMax := atrPctMax,
            maxStopPct := maxStopPct, stopAtrMult := stopAtrMult, minRR := minRR },
          some ⟨atrMedian, atrCurrent, ratio, lookback⟩⟩

/-- A flat-volatility candle: every bar has range 2 around a close of 100,
so every true range is 2 and the ATR% series is constantly 2. -/
def flatCandle (t : ℚ) : Candle := ⟨t, 100, 101, 99, 100, 1⟩

/-- Four consecutive flat-volatility candles. -/
def demoCandles : List Candle :=
  [flatCandle 0, flatCandle 1, flatCandle 2, flatCandle 3]

/-- A base gate whose ATR band midpoint `(1.5 + 2.5)/2 = 2` equals the
median ATR% of `demoCandles`. -/
def demoGate : QualityGateConfig :=
  ⟨0.8, 1.4, 1.5, 2.5, false, 4, 80, 1.1⟩

/-! ### Pivot and zone detection (`src/utils/pivots.ts`) -/

/-- `pivotHigh` from `src/utils/pivots.ts`: a bar is a pivot high unless a
bar in the `left` window has a greater-or-equal high or a bar in the `right`
window has a strictly greater high; out-of-range neighbours are skipped. -/
def pivotHigh (candles : List Candle) (index left right : ℕ) : Bool :=
  match candles.get? index with
  | none => false
  | some curr =>
    ((List.range' (index - left) (min left index)).all
        (fun i => decide ((candles.getD i default).high < curr.high))) &&
    ((List.range' (index + 1) (min right (candles.length - (index + 1)))).all
        (fun i => decide ((candles.getD i default).high ≤ curr.high)))

/-- `pivotLow` from `src/utils/pivots.ts`: symmetric to `pivotHigh` on lows
(`<=` disqualifies on the left, `<` on the right). -/
def pivotLow (candles : List Candle) (index left right : ℕ) : Bool :=
  match candles.get? index with
  | none => false
  | some curr =>
    ((List.range' (index - left) (min left index)).all
        (fun i => decide (curr.low < (candles.getD i default).low))) &&
    ((List.range' (index + 1) (min right (candles.length - (index + 1)))).all
        (fun i => decide (curr.low ≤ (candles.getD i default).low)))

/-- Zone kind. -/
inductive ZoneType where
  | supply
  | demand
deriving DecidableEq, Repr

/-- `SupplyDemandZone` from `src/types.ts` as produced by
`detectSupplyDemandZones`. -/
structure SupplyDemandZone where
  id : String
  type_ : ZoneType
  pivotIndex : ℕ
  startTime : ℚ
  top : ℚ
  bottom : ℚ
  fresh : Bool
  mitigated : Bool
  lastTouch : Option ℚ
  endTime : Option ℚ
deriving DecidableEq, Repr

/-- Configuration argument of `detectSupplyDemandZones`. -/
structure ZoneConfig where
  left : ℕ
  right : ℕ
  atrMult : ℚ
  invalidationBufferPct : Option ℚ
deriving DecidableEq, Repr

/-- `makeZone` from `src/utils/pivots.ts`. -/
def makeZone (type_ : ZoneType) (pivotIndex : ℕ) (time top bottom : ℚ) :
    SupplyDemandZone :=
  { id := (match type_ with | .supply => "supply" | .demand => "demand")
      ++ "-" ++ toString pivotIndex ++ "-" ++ toString time,
    type_ := type_, pivotIndex := pivotIndex, startTime := time,
    top := top, bottom := bottom, fresh := true, mitigated := false,
    lastTouch := none, endTime := none }

/-- The creation pass of `detectSupplyDemandZones`: one supply zone per
pivot high and one demand zone per pivot low, skipping bars whose ATR value
is not finite. -/
def createZones (candles : List Candle) (atrValues : List (Option ℚ))
    (cfg : ZoneConfig) : List SupplyDemandZone :=
  (List.range candles.length).flatMap (fun i =>
    let candle := candles.getD i default
    match atrValues.getD i none with
    | none => []
    | some a =>
      (if pivotHigh candles i cfg.left cfg.right then
        [makeZone .supply i candle.time candle.high (candle.high - a * cfg.atrMult)]
      else []) ++
      (if pivotLow candles i cfg.left cfg.right then
        [makeZone .demand i candle.time (candle.low + a * cfg.atrMult) candle.low]
      else []))

/-- The per-candle body of the touch/invalidation pass of
`detectSupplyDemandZones` (`zones.forEach` inside the candle loop): a zone is
skipped once mitigated or when the candle predates it; otherwise its band is
checked for a touch (flipping `fresh`) and its buffered edge for
invalidation. -/
def updateZone (bufferPct : ℚ) (candle : Candle) (zone : SupplyDemandZone) :
    SupplyDemandZone :=
  if zone.mitigated then zone
  else if candle.time < zone.startTime then zone
  else
    let touched : Bool := match zone.type_ with
      | .demand => decide (candle.low ≤ zone.top) && decide (zone.bottom ≤ candle.low)
      | .supply => decide (zone.bottom ≤ candle.high) && decide (candle.high ≤ zone.top)
    let z1 := if touched then
        { zone with fresh := false, lastTouch := some candle.time }
      else zone
    let invalidated : Bool := match zone.type_ with
      | .demand => decide (candle.close < zone.bottom * (1 - bufferPct))
      | .supply => decide (zone.top * (1 + bufferPct) < candle.close)
    if invalidated then { z1 with mitigated := true, endTime := some candle.time }
    else z1

/-- `detectSupplyDemandZones` from `src/utils/pivots.ts`: create a zone per
pivot, then replay every candle over every zone in order. -/
def detectSupplyDemandZones (candles : List Candle) (atrValues : List (Option ℚ))
    (cfg : ZoneConfig) : List SupplyDemandZone :=
  let bufferPct := cfg.invalidationBufferPct.getD 0.001
  let zones := createZones candles atrValues cfg
  candles.foldl (fun zs c => zs.map (updateZone bufferPct c)) zones

/-! ### Outcome evaluator (`src/services/performance.ts`) -/

/-- Trade direction. -/
inductive Side where
  | long
  | short
deriving DecidableEq, Repr, Inhabited

/-- Single-outcome classification. -/
inductive TradeOutcome where
  | tp1
  | stop
  | timeout
  | open_
deriving DecidableEq, Repr

/-- The fields of `Signal` (`src/types.ts`) consumed by the evaluator, the
trade-plan simulator and the auto-mute rule.  `dataSource`/`gateMode` are
optional in the source and defaulted at use sites. -/
structure Signal where
  id : String
  symbol : String
  timeframe : String
  side : Side
  entry : ℚ
  stop : ℚ
  tp1 : ℚ
  rr : ℚ
  score : ℚ
  timestamp : ℚ
  dataSource : Option String
  gateMode : Option String
deriving DecidableEq, Repr, Inhabited

/-- `ExecutionCosts` from `src/services/performance.ts`. -/
structure ExecutionCosts where
  feeBps : ℚ
  slippageBps : ℚ
deriving DecidableEq, Repr

/-- `EvaluatedTrade` from `src/services/performance.ts`. -/
structure EvaluatedTrade where
  signal : Signal
  outcome : TradeOutcome
  r : ℚ
  barsHeld : ℕ
deriving DecidableEq, Repr

/-- `costInR` from `src/services/performance.ts`: round-trip cost in risk
units; `0` without costs, non-positive bps, or non-positive risk. -/
def costInR (entry exit risk : ℚ) (costs : Option ExecutionCosts) : ℚ :=
  match costs with
  | none => 0
  | some c =>
    let totalBps := c.feeBps + c.slippageBps
    if totalBps ≤ 0 ∨ risk ≤ 0 then 0
    else (entry + exit) * (totalBps / 10000) / risk

/-- The binary-search loop of `firstIndexAtOrAfter`
(`src/services/performance.ts`); `>> 1` is floor division by two. -/
def fiaaGo (times : List ℚ) (ts : ℚ) (lo hi : ℤ) : ℤ :=
  if _h : lo ≤ hi then
    let mid := (lo + hi) / 2
    if times.getD mid.toNat 0 < ts then fiaaGo times ts (mid + 1) hi
    else fiaaGo times ts lo (mid - 1)
  else lo
termination_by (hi + 1 - lo).toNat
decreasing_by all_goals omega

/-- `firstIndexAtOrAfter` from `src/services/performance.ts`. -/
def firstIndexAtOrAfter (times : List ℚ) (ts : ℚ) : ℤ :=
  fiaaGo times ts 0 ((times.length : ℤ) - 1)

/-- The stop-touch test of `evaluateSignal`'s scan loop:
`isLong ? c.low <= stop : c.high >= stop`. -/
def stopTouched (isLong : Bool) (stop : ℚ) (c : Candle) : Bool :=
  if isLong then decide (c.low ≤ stop) else decide (stop ≤ c.high)

/-- The TP1-touch test of `evaluateSignal`'s scan loop:
`isLong ? c.high >= tp1 : c.low <= tp1`. -/
def tpTouched (isLong : Bool) (tp1 : ℚ) (c : Candle) : Bool :=
  if isLong then decide (tp1 ≤ c.high) else decide (c.low ≤ tp1)

/-- The forward scan loop of `evaluateSignal`: bars `i`, `i+1`, …, `endIdx`
are checked for a stop touch first (ties go to the stop), then a TP1 touch;
`none` when neither is touched in the window. -/
def evalScan (signal : Signal) (candles : List Candle)
    (costs : Option ExecutionCosts) (isLong : Bool) (entry stop tp1 risk : ℚ)
    (start endIdx : ℕ) (i : ℕ) : Option EvaluatedTrade :=
  if _h : i ≤ endIdx then
    let c := candles.getD i default
    if stopTouched isLong stop c then
      some ⟨signal, .stop, -1 - costInR entry stop risk costs, i - start⟩
    else if tpTouched isLong tp1 c then
      some ⟨signal, .tp1, signal.rr - costInR entry tp1 risk costs, i - start⟩
    else evalScan signal candles costs isLong entry stop tp1 risk start endIdx (i + 1)
  else none
termination_by endIdx + 1 - i

/-- The evaluation start index of `evaluateSignal`:
`Math.min(firstIndexAtOrAfter(times, ts), candles.length - 1)`. -/
def evalStart (signal : Signal) (candles : List Candle) : ℕ :=
  (min (firstIndexAtOrAfter (candles.map (·.time)) signal.timestamp)
    ((candles.length : ℤ) - 1)).toNat

/-- The evaluation end index of `evaluateSignal`:
`Math.min(candles.length - 1, start + maxHoldBars)`. -/
def evalEnd (signal : Signal) (candles : List Candle)
    (maxHoldBarsOpt : Option ℕ) : ℕ :=
  min (candles.length - 1) (evalStart signal candles + max 1 (maxHoldBarsOpt.getD 60))

/-- `evaluateSignal` from `src/services/performance.ts`.  `maxHoldBarsOpt`
models `opts?.maxHoldBars` already floored to an integer (the source floors
it); `none` selects the default `60`. -/
def evaluateSignal (signal : Signal) (candles : List Candle)
    (maxHoldBarsOpt : Option ℕ) (costs : Option ExecutionCosts) : EvaluatedTrade :=
  if candles.length = 0 then ⟨signal, .open_, 0, 0⟩
  else
    let times := candles.map (·.time)
    let firstTime := times.getD 0 0
    let lastTime := times.getD (times.length - 1) 0
    if signal.timestamp < firstTime ∨ lastTime < signal.timestamp then
      ⟨signal, .open_, 0, 0⟩
    else
      let start := evalStart signal candles
      let endIdx := evalEnd signal candles maxHoldBarsOpt
      let entry := signal.entry
      let stop := signal.stop
      let tp1 := signal.tp1
      let risk := |entry - stop|
      let isLong := signal.side == Side.long
      if entry ≤ 0 ∨ risk ≤ 0 then ⟨signal, .open_, 0, 0⟩
      else
        match evalScan signal candles costs isLong entry stop tp1 risk
          start endIdx (start + 1) with
        | some t => t
        | none =>
          if start < endIdx then
            let exit := (candles.getD endIdx default).close
            let move := if isLong then exit - entry else entry - exit
            let costR := costInR entry exit risk costs
            let r := move / (if risk = 0 then 1 else risk) - costR
            ⟨signal,
              if endIdx = candles.length - 1 then .open_ else .timeout,
              r, endIdx - start⟩
          else ⟨signal, .open_, 0, 0⟩

/-! ### Auto-mute decision (`src/services/autoMute.ts`) -/

/-- The branch taken for the human-readable `reason` string of
`AutoMuteDecision`; the string formatting itself is not modelled, only
which message is produced and with which numeric payload. -/
inductive AutoMuteReason where
  | notEnoughTrades (evaluated minToDecide : ℕ)
  | negativeExpectancy (expectancy : ℚ)
  | okExpectancy (expectancy : ℚ)
deriving DecidableEq, Repr

/-- `AutoMuteDecision` from `src/services/autoMute.ts`; `windowLabel`
(`last N trades`) is modelled by its numeric payload `N`. -/
structure AutoMuteDecision where
  muted : Bool
  evaluatedTrades : ℕ
  expectancyR : Option ℚ
  windowLabel : ℕ
  reason : AutoMuteReason
deriving DecidableEq, Repr

/-- JavaScript `slice(-n)` on any list. -/
def sliceLast {α : Type} (l : List α) (n : ℕ) : List α :=
  if n = 0 then l else l.drop (l.length - n)

/-- The evaluated rolling window of `computeAutoMuteDecision`: scope to the
symbol/timeframe/dataSource/gateMode stream, sort by timestamp, evaluate
each signal, drop unresolved (`open`) trades and keep the last
`windowTrades`. -/
def autoMuteWindow (symbol timeframe dataSource gateMode : String)
    (signals : List Signal) (candles : List Candle)
    (maxHoldBars windowTrades : ℕ) (costs : Option ExecutionCosts) :
    List EvaluatedTrade :=
  let inScope := ((signals.filter (fun s => s.symbol == symbol && s.timeframe == timeframe)).filter
      (fun s => s.dataSource.getD "futures" == dataSource)).filter
    (fun s => s.gateMode.getD "default" == gateMode)
  let sorted := List.insertionSort (fun a b => a.timestamp ≤ b.timestamp) inScope
  sliceLast ((sorted.map
      (fun s => evaluateSignal s candles (some maxHoldBars) costs)).filter
    (fun t => t.outcome ≠ TradeOutcome.open_)) windowTrades

/-- `computeAutoMuteDecision` from `src/services/autoMute.ts`. -/
def computeAutoMuteDecision (symbol timeframe dataSource gateMode : String)
    (signals : List Signal) (candles : List Candle)
    (maxHoldBars windowTrades minTradesToDecide : ℕ)
    (costs : Option ExecutionCosts) : AutoMuteDecision :=
  let evaluated := autoMuteWindow symbol timeframe dataSource gateMode signals
    candles maxHoldBars windowTrades costs
  if evaluated.length < minTradesToDecide then
    ⟨false, evaluated.length, none, windowTrades,
      .notEnoughTrades evaluated.length minTradesToDecide⟩
  else
    let expectancy := (evaluated.foldl (fun acc t => acc + t.r) (0 : ℚ)) / (evaluated.length : ℚ)
    let muted := decide (expectancy < 0)
    ⟨muted, evaluated.length, some expectancy, windowTrades,
      if muted then .negativeExpectancy expectancy else .okExpectancy expectancy⟩

/-! ### Trade-plan simulator (`src/utils/tradePlan.ts`) -/

/-- `TradePlanEvent` from `src/utils/tradePlan.ts`; the fixed `STOP`/`EXIT`
labels are carried by the constructor. -/
inductive TradePlanEvent where
  | tp (time : ℚ) (tpFrom tpTo : ℕ) (label : String)
  | stop (time : ℚ)
  | exit (time : ℚ)
deriving DecidableEq, Repr

/-- Trade-plan status. -/
inductive TradePlanStatus where
  | open_
  | stop
  | exit
deriving DecidableEq, Repr

/-- One R-multiple target. -/
structure TradePlanTarget where
  r : ℚ
  price : ℚ
deriving DecidableEq, Repr

/-- `TradePlanResult` from `src/utils/tradePlan.ts`. -/
structure TradePlanResult where
  risk : ℚ
  targets : List TradePlanTarget
  tpsHit : ℕ
  status : TradePlanStatus
  events : List TradePlanEvent
deriving DecidableEq, Repr

/-- `computeRTargets` from `src/utils/tradePlan.ts`. -/
def computeRTargets (signal : Signal) (tpMultipliers : List ℚ) :
    List TradePlanTarget :=
  let risk := |signal.entry - signal.stop|
  if risk ≤ 0 then []
  else
    tpMultipliers.map (fun r =>
      ⟨r, if signal.side == Side.long then signal.entry + risk * r
          else signal.entry - risk * r⟩)

/-- The loop-invariant parameters of the bar loop in `simulateTradePlan`. -/
structure SimParams where
  isLong : Bool
  stop : ℚ
  targetPrices : List ℚ
  emaValues : List (Option ℚ)
  confirmBars : ℕ
  requireTpForExit : Bool
deriving DecidableEq, Repr

/-- The mutable state of the bar loop in `simulateTradePlan`. -/
structure SimState where
  nextTargetIdx : ℕ
  tpsHit : ℕ
  trendViolations : ℕ
  lastTpIndex : ℤ
  status : TradePlanStatus
  events : List TradePlanEvent
deriving DecidableEq, Repr

/-- The body of the bar loop in `simulateTradePlan` (one `for` iteration):
stop touch terminates immediately (before targets are looked at); the inner
`while` over remaining targets is the `takeWhile` count; the trend-flip exit
activates only with a TP already hit (when `requireTpForExit`), a finite EMA
value, `confirmBars` consecutive violations and a bar strictly after the
latest TP.  The `Bool` is the `break` flag. -/
def simBody (p : SimParams) (i : ℕ) (c : Candle) (s : SimState) :
    Bool × SimState :=
  let stopHit := if p.isLong then decide (c.low ≤ p.stop)
    else decide (p.stop ≤ c.high)
  if stopHit then
    (true, { s with status := .stop, events := s.events ++ [.stop c.time] })
  else
    let hitCount := ((p.targetPrices.drop s.nextTargetIdx).takeWhile
      (fun t => if p.isLong then decide (t ≤ c.high) else decide (c.low ≤ t))).length
    let s1 := if 0 < hitCount then
        { s with
          nextTargetIdx := s.nextTargetIdx + hitCount
          tpsHit := s.tpsHit + hitCount
          lastTpIndex := (i : ℤ)
          events := s.events ++ [.tp c.time (s.tpsHit + 1) (s.tpsHit + hitCount)
            (if hitCount = 1 then "TP" ++ toString (s.tpsHit + hitCount)
              else "TP" ++ toString (s.tpsHit + 1) ++ "-TP"
                ++ toString (s.tpsHit + hitCount))] }
      else { s with nextTargetIdx := s.nextTargetIdx + hitCount }
    if p.requireTpForExit && s1.tpsHit == 0 then (false, s1)
    else
      match p.emaValues.getD i none with
      | none => (false, s1)
      | some emaVal =>
        let trendOk := if p.isLong then decide (emaVal ≤ c.close)
          else decide (c.close ≤ emaVal)
        let s2 := { s1 with
          trendViolations := if trendOk then 0 else s1.trendViolations + 1 }
        if p.confirmBars ≤ s2.trendViolations ∧ s2.lastTpIndex < (i : ℤ) then
          (true, { s2 with status := .exit, events := s2.events ++ [.exit c.time] })
        else (false, s2)

/-- The bar loop of `simulateTradePlan` over the enumerated forward candles:
run `simBody` per bar, stopping at the first `break`. -/
def simLoop (p : SimParams) : List (ℕ × Candle) → SimState → SimState
  | [], s => s
  | (i, c) :: rest, s =>
    let r := simBody p i c s
    if r.1 then r.2 else simLoop p rest r.2

/-- `simulateTradePlan` from `src/utils/tradePlan.ts`.  `confirmBars` and
`maxHoldBars` model the already-floored option values (the source floors
them); `emaValues` entries are `none` where the EMA series is non-finite. -/
def simulateTradePlan (signal : Signal) (candles : List Candle)
    (emaValues : List (Option ℚ)) (tpMultipliers : List ℚ)
    (confirmBars maxHoldBars : ℕ) (requireTpForExit : Bool) : TradePlanResult :=
  let confirmBars := max 1 confirmBars
  let maxHoldBars := max 1 maxHoldBars
  let entry := signal.entry
  let stop := signal.stop
  let risk := |entry - stop|
  let targets := computeRTargets signal tpMultipliers
  if candles.length = 0 ∨ risk ≤ 0 then ⟨risk, targets, 0, .open_, []⟩
  else
    let isLong := signal.side == Side.long
    let entryIdx := candles.findIdx (fun c => decide (signal.timestamp ≤ c.time))
    if candles.length - 1 ≤ entryIdx then ⟨risk, targets, 0, .open_, []⟩
    else
      let targetPrices := targets.map (·.price)
      let endI := min (candles.length - 1) (entryIdx + maxHoldBars)
      let pending := ((candles.enum).drop (entryIdx + 1)).take (endI - entryIdx)
      let s := simLoop
        ⟨isLong, stop, targetPrices, emaValues, confirmBars, requireTpForExit⟩
        pending ⟨0, 0, 0, -1, .open_, []⟩
      ⟨risk, targets, s.tpsHit, s.status, s.events⟩

/-- Time stamp of a trade-plan event. -/
def eventTime : TradePlanEvent → ℚ
  | .tp t _ _ _ => t
  | .stop t => t
  | .exit t => t

/-- Whether a trade-plan event is terminal (`STOP` or `EXIT`). -/
def isTerminalEvent : TradePlanEvent → Bool
  | .tp _ _ _ _ => false
  | .stop _ => true
  | .exit _ => true

/-- The `tpFrom`/`tpTo` range carried by a TP event (`none` on terminal
events). -/
def tpRange : TradePlanEvent → Option (ℕ × ℕ)
  | .tp _ f t _ => some (f, t)
  | .stop _ => none
  | .exit _ => none

/-- Strict progression of TP counters: every TP range of `e1` ends strictly
before every TP range of `e2` begins (vacuous on terminal events). -/
def tpLt (e1 e2 : TradePlanEvent) : Prop :=
  ∀ ft1 ft2 : ℕ × ℕ, tpRange e1 = some ft1 → tpRange e2 = some ft2 →
    ft1.2 < ft2.1

/-! ### Meta-model validation (`src/services/metaModel.ts`)

The source validates untrusted JSON (`validateMetaModel(input: any)`).  The
embedding types the input as the record below, so the dynamic
`typeof`/`Array.isArray`/`Number.isFinite` shape checks of the source hold by
construction; the checks with content remain: the version tag, the
weights/features length match, and the optional means/stds length matches.
An absent optional field is `none`; serialising a well-formed value and
parsing it back is the identity at this type. -/

/-- The (already shape-checked) input of `validateMetaModel`. -/
structure MetaModelV1 where
  version : String
  features : List String
  weights : List ℚ
  bias : ℚ
  means : Option (List ℚ)
  stds : Option (List ℚ)
  threshold : Option ℚ
deriving DecidableEq, Repr

/-- The `input.means && input.means.length !== input.features.length` guard
(an absent field is skipped; an empty present array is truthy and checked). -/
def lenMismatch (o : Option (List ℚ)) (n : ℕ) : Bool :=
  match o with
  | none => false
  | some l => l.length != n

/-- `validateMetaModel` from `src/services/metaModel.ts`: tagged
`Ok(model) | Err(reason)` result, checks in source order. -/
def validateMetaModel (input : MetaModelV1) : Except String MetaModelV1 :=
  if input.version ≠ "fsd-meta-v1" then
    .error "Unsupported model version."
  else if input.weights.length ≠ input.features.length then
    .error "weights length must match features length."
  else if lenMismatch input.means input.features.length then
    .error "means must be number[] with same length as features."
  else if lenMismatch input.stds input.features.length then
    .error "stds must be number[] with same length as features."
  else .ok input

/-! ### Offline trainer: walk-forward validation (`scripts/train-meta-model.mjs`)

`Math.exp`, `Math.log` and `Math.sqrt` are transcendental floating-point
primitives with no exact rational counterpart; the embedding takes them as
function parameters (`expF`, `logF`, `sqrtF`).  All fold-structure claims
hold for every choice of these parameters, which is how they are stated. -/

/-- Gradient-descent options (`iters`, `lr`, `l2`). -/
structure TrainOpts where
  iters : ℕ
  lr : ℚ
  l2 : ℚ
deriving DecidableEq, Repr

/-- One labelled feature row of the training set. -/
structure WfRow where
  x : List ℚ
  y : ℚ
deriving DecidableEq, Repr

/-- The options consumed by `runWalkForward`. -/
structure WfOpts where
  testFraction : ℚ
  minTrainFraction : ℚ
  folds : ℕ
  training : TrainOpts
deriving DecidableEq, Repr

/-- One walk-forward fold record as pushed by `runWalkForward`. -/
structure FoldResult where
  fold : ℕ
  trainSize : ℕ
  testSize : ℕ
  accuracy : ℚ
  logLoss : ℚ
  baseRate : ℚ
  driftAvgAbsZ : ℚ
  driftMaxAbsZ : ℚ
deriving DecidableEq, Repr

/-- `sigmoid` from `scripts/train-meta-model.mjs` (clipped logistic). -/
def sigmoid (expF : ℚ → ℚ) (z : ℚ) : ℚ :=
  if 20 < z then 1
  else if z < -20 then 0
  else 1 / (1 + expF (-z))

/-- `standardize` from `scripts/train-meta-model.mjs`: per-column mean and
standard deviation (`|| 1` on a zero deviation) and the z-scored matrix. -/
def standardize (sqrtF : ℚ → ℚ) (X : List (List ℚ)) :
    List ℚ × List ℚ × List (List ℚ) :=
  match X with
  | [] => ([], [], [])
  | x0 :: _ =>
    let d := x0.length
    let means := (List.range d).map (fun j => average (X.map (fun r => r.getD j 0)))
    let stds := (List.range d).map (fun j =>
      let m := means.getD j 0
      let s := sqrtF (average (X.map (fun r => (r.getD j 0 - m) ^ 2)))
      if s = 0 then 1 else s)
    let Xn := X.map (fun r =>
      r.mapIdx (fun j v => (v - means.getD j 0) / stds.getD j 0))
    (means, stds, Xn)

/-- `standardizeWith` from `scripts/train-meta-model.mjs`. -/
def standardizeWith (X : List (List ℚ)) (means stds : List ℚ) :
    List (List ℚ) :=
  X.map (fun r => r.mapIdx (fun j v =>
    (v - means.getD j 0) / (if stds.getD j 0 = 0 then 1 else stds.getD j 0)))

/-- One gradient-descent iteration of `trainLogReg`. -/
def trainStep (expF : ℚ → ℚ) (X : List (List ℚ)) (y : List ℚ) (lr l2 : ℚ)
    (w : List ℚ) (b : ℚ) : List ℚ × ℚ :=
  let n := X.length
  let d := (X.headD []).length
  let errs := (List.range n).map (fun i =>
    let xi := X.getD i []
    let z := b + (List.range d).foldl (fun acc j => acc + w.getD j 0 * xi.getD j 0) 0
    sigmoid expF z - y.getD i 0)
  let gradB := (errs.foldl (· + ·) 0) / (n : ℚ)
  let gradW := (List.range d).map (fun j =>
    ((List.range n).foldl
        (fun acc i => acc + errs.getD i 0 * (X.getD i []).getD j 0) 0) / (n : ℚ)
      + l2 * w.getD j 0)
  ((List.range d).map (fun j => w.getD j 0 - lr * gradW.getD j 0), b - lr * gradB)

/-- `trainLogReg` from `scripts/train-meta-model.mjs`: batch gradient
descent from zero weights. -/
def trainLogReg (expF : ℚ → ℚ) (X : List (List ℚ)) (y : List ℚ)
    (t : TrainOpts) : List ℚ × ℚ :=
  let d := (X.headD []).length
  (List.range t.iters).foldl
    (fun wb _ => trainStep expF X y t.lr t.l2 wb.1 wb.2)
    (List.replicate d 0, 0)

/-- Per-fold evaluation metrics. -/
structure EvalMetrics where
  accuracy : ℚ
  logLoss : ℚ
  baseRate : ℚ
deriving DecidableEq, Repr

/-- `evaluateModel` from `scripts/train-meta-model.mjs`. -/
def evaluateModel (expF logF : ℚ → ℚ) (X : List (List ℚ)) (y : List ℚ)
    (w : List ℚ) (b : ℚ) : EvalMetrics :=
  let n := X.length
  let preds := (List.range n).map (fun i =>
    let xi := X.getD i []
    let z := b + (List.range w.length).foldl
      (fun acc j => acc + w.getD j 0 * xi.getD j 0) 0
    sigmoid expF z)
  let correct := ((List.range n).filter (fun i =>
    (if (1 : ℚ)/2 ≤ preds.getD i 0 then (1 : ℚ) else 0) = y.getD i 0)).length
  let positives := ((List.range n).filter (fun i => y.getD i 0 ≠ 0)).length
  let logLossSum := (List.range n).foldl (fun acc i =>
    let p := preds.getD i 0
    let yy := y.getD i 0
    acc - (yy * logF (p + 1/1000000000) + (1 - yy) * logF (1 - p + 1/1000000000))) 0
  ⟨(correct : ℚ) / (n : ℚ), logLossSum / (n : ℚ), (positives : ℚ) / (n : ℚ)⟩

/-- `driftStats` from `scripts/train-meta-model.mjs`: per-feature mean
z-score of the held-out rows under the training standardisation. -/
def driftStats (X : List (List ℚ)) (means stds : List ℚ) : ℚ × ℚ :=
  if X.length = 0 then (0, 0)
  else
    let d := means.length
    let n := X.length
    let zMeans := (List.range d).map (fun j =>
      (X.foldl (fun acc row =>
        acc + (row.getD j 0 - means.getD j 0)
          / (if stds.getD j 0 = 0 then 1 else stds.getD j 0)) 0) / (n : ℚ))
    let absMeans := zMeans.map (fun v => |v|)
    (average absMeans,
      match absMeans with
      | [] => 0
      | a :: rest => rest.foldl max a)

/-- One fold record of `runWalkForward`'s loop body: train on the expanding
prefix, evaluate on the following fixed-size test window, and attach the
drift statistics. -/
def wfFoldRecord (expF logF sqrtF : ℚ → ℚ) (rows : List WfRow)
    (testSize : ℕ) (training : TrainOpts) (trainEnd fold : ℕ) : FoldResult :=
  let trainRows := rows.take trainEnd
  let testRows := (rows.drop trainEnd).take testSize
  let trainX := trainRows.map (·.x)
  let trainY := trainRows.map (·.y)
  let testX := testRows.map (·.x)
  let testY := testRows.map (·.y)
  let std := standardize sqrtF trainX
  let wb := trainLogReg expF std.2.2 trainY training
  let testXn := standardizeWith testX std.1 std.2.1
  let metrics := evaluateModel expF logF testXn testY wb.1 wb.2
  let drift := driftStats testX std.1 std.2.1
  ⟨fold, trainRows.length, testRows.length, metrics.accuracy,
    metrics.logLoss, metrics.baseRate, drift.1, drift.2⟩

/-- The `while` loop of `runWalkForward`: expanding train window, fixed-size
test window advancing by `testSize` per fold, capped at `foldsMax` folds; the
`break` on an empty standardised train matrix or empty test window is the
inner conditional. -/
def wfLoop (expF logF sqrtF : ℚ → ℚ) (rows : List WfRow)
    (total testSize foldsMax : ℕ) (training : TrainOpts)
    (trainEnd fold : ℕ) : List FoldResult :=
  if _h : trainEnd + testSize ≤ total ∧ fold ≤ foldsMax then
    if (standardize sqrtF ((rows.take trainEnd).map (·.x))).2.2.length = 0
        ∨ (((rows.drop trainEnd).take testSize).map (·.x)).length = 0 then []
    else
      wfFoldRecord expF logF sqrtF rows testSize training trainEnd fold
        :: wfLoop expF logF sqrtF rows total testSize foldsMax training
          (trainEnd + testSize) (fold + 1)
  else []
termination_by foldsMax + 1 - fold
decreasing_by omega

/-- `runWalkForward` from `scripts/train-meta-model.mjs`. -/
def runWalkForward (expF logF sqrtF : ℚ → ℚ) (rows : List WfRow)
    (opts : WfOpts) : List FoldResult :=
  let total := rows.length
  if total = 0 then []
  else
    let testSize := max 50 (⌊(total : ℚ) * opts.testFraction⌋).toNat
    let minTrain := max (⌊(total : ℚ) * opts.minTrainFraction⌋).toNat testSize
    wfLoop expF logF sqrtF rows total testSize opts.folds opts.training minTrain 1

/-! ### The claim-side pivot predicate (C6)

The specification states the pivot rule with a strict inequality on both
windows.  `specPivotHigh` transcribes that sentence (for comparison with the
source's `pivotHigh`, which uses `>=` on the left window). -/

/-- The pivot-high rule as worded by the spec: no candle in `[i-L, i-1]` has
a strictly greater high and no candle in `[i+1, i+R]` has a strictly greater
high (out-of-range neighbours skipped). -/
def specPivotHigh (candles : List Candle) (index left right : ℕ) : Bool :=
  match candles.get? index with
  | none => false
  | some curr =>
    ((List.range' (index - left) (min left index)).all
        (fun i => decide ((candles.getD i default).high ≤ curr.high))) &&
    ((List.range' (index + 1) (min right (candles.length - (index + 1)))).all
        (fun i => decide ((candles.getD i default).high ≤ curr.high)))

/-- Three bars whose first two share the same high: the left neighbour of
index 1 has an equal (not strictly greater) high. -/
def c6Candles : List Candle :=
  [⟨0, 100, 100, 90, 95, 1⟩, ⟨1, 100, 100, 80, 95, 1⟩, ⟨2, 85, 90, 80, 85, 1⟩]

/-- A concrete long signal: entry 100, stop 95, tp1 110, rr 2, at time 1. -/
def c5Signal : Signal :=
  ⟨"s1", "BTCUSDT", "15m", .long, 100, 95, 110, 2, 80, 1, none, none⟩

/-- Three bars covering `c5Signal`; the second bar's low 90 touches the
stop. -/
def c5Candles : List Candle :=
  [⟨1, 100, 101, 99, 100, 1⟩, ⟨2, 96, 97, 90, 92, 1⟩, ⟨3, 92, 93, 91, 92, 1⟩]

/-- The spec's per-bar true range for a bar with a previous close:
`max(h-l, |h-prevClose|, |l-prevClose|)` (meaningful for `1 ≤ i`). -/
def trueRangeAt (candles : List Candle) (i : ℕ) : ℚ :=
  let curr := candles.getD i default
  let prevClose := (candles.getD (i - 1) default).close
  max (curr.high - curr.low) (max |curr.high - prevClose| |curr.low - prevClose|)

/-- One Wilder smoothing step: `(prevATR*(period-1) + TR) / period`. -/
def wilderStep (period : ℕ) (a tr : ℚ) : ℚ :=
  (a * ((period : ℚ) - 1) + tr) / (period : ℚ)

/-- Forward series for the claim's stop case: bar 1's low touches 94 (below
the stop 95) before any high reaches 110. -/
def c3StopCandles : List Candle :=
  [⟨1, 100, 101, 99, 100, 1⟩, ⟨2, 98, 99, 94, 96, 1⟩, ⟨3, 96, 97, 95, 96, 1⟩]

/-- Forward series for the claim's TP1 case: the high reaches 111 on the
third bar before any stop touch. -/
def c3TpCandles : List Candle :=
  [⟨1, 100, 101, 99, 100, 1⟩, ⟨2, 102, 105, 100, 104, 1⟩,
    ⟨3, 106, 111, 104, 110, 1⟩]

/-- A series with a demand-zone pivot low at index 1 whose band `[90, 91]`
is never intersected by any later candle. -/
def c2Candles : List Candle :=
  [⟨1, 100, 101, 96, 100, 1⟩, ⟨2, 95, 96, 90, 95, 1⟩, ⟨3, 100, 101, 95, 100, 1⟩]

/-- Finite ATR values for `c2Candles`. -/
def c2Atr : List (Option ℚ) := [some 1, some 1, some 1]

/-- Zone configuration for the C2 inputs (left = right = atrMult = 1,
explicit zero invalidation buffer). -/
def c2Cfg : ZoneConfig := ⟨1, 1, 1, some 0⟩

/-! ## Theorems -/

theorem jsClamp_eq_self {v lo hi : ℚ} (h1 : lo ≤ v) (h2 : v ≤ hi) :
    jsClamp v lo hi = v := by
  simp [jsClamp, max_eq_left h1, min_eq_left h2]

/-- C8: `validateMetaModel` rejects (with a validation error, never a
silent truncation) a weights/features length mismatch, a present means or
stds array whose length differs from the features, and a version string
other than `fsd-meta-v1`; a well-formed model is accepted unchanged, so a
serialise/parse round trip reproduces identical weights, bias and
threshold. -/
theorem validateMetaModel_spec :
    (∀ m : MetaModelV1, m.weights.length ≠ m.features.length →
      ∃ e, validateMetaModel m = .error e) ∧
    (∀ (m : MetaModelV1) (ms : List ℚ), m.means = some ms →
      ms.length ≠ m.features.length → ∃ e, validateMetaModel m = .error e) ∧
    (∀ (m : MetaModelV1) (ss : List ℚ), m.stds = some ss →
      ss.length ≠ m.features.length → ∃ e, validateMetaModel m = .error e) ∧
    (∀ m : MetaModelV1, m.version ≠ "fsd-meta-v1" →
      ∃ e, validateMetaModel m = .error e) ∧
    (∀ m : MetaModelV1, m.version = "fsd-meta-v1" →
      m.weights.length = m.features.length →
      (∀ ms, m.means = some ms → ms.length = m.features.length) →
      (∀ ss, m.stds = some ss → ss.length = m.features.length) →
      validateMetaModel m = .ok m) := by
  refine ⟨?_, ?_, ?_, ?_, ?_⟩
  · intro m hlen
    unfold validateMetaModel
    by_cases hv : m.version = "fsd-meta-v1"
    · exact ⟨_, by simp [hv, hlen]; try rfl⟩
    · exact ⟨_, by simp [hv]; try rfl⟩
  · intro m ms hms hlen
    unfold validateMetaModel
    by_cases hv : m.version = "fsd-meta-v1"
    · by_cases hw : m.weights.length = m.features.length
      · refine ⟨"means must be number[] with same length as features.", ?_⟩
        have hmm : lenMismatch m.means m.features.length = true := by
          simp [lenMismatch, hms, hlen]
        simp [hv, hw, hmm]
        try rfl
      · exact ⟨_, by simp [hv, hw]; try rfl⟩
    · exact ⟨_, by simp [hv]; try rfl⟩
  · intro m ss hss hlen
    unfold validateMetaModel
    by_cases hv : m.version = "fsd-meta-v1"
    · by_cases hw : m.weights.length = m.features.length
      · by_cases hmm : lenMismatch m.means m.features.length = true
        · exact ⟨_, by simp [hv, hw, hmm]; try rfl⟩
        · refine ⟨"stds must be number[] with same length as features.", ?_⟩
          have hsm : lenMismatch m.stds m.features.length = true := by
            simp [lenMismatch, hss, hlen]
          simp [hv, hw, hmm, hsm]
          try rfl
      · exact ⟨_, by simp [hv, hw]; try rfl⟩
    · exact ⟨_, by simp [hv]; try rfl⟩
  · intro m hv
    exact ⟨_, by simp [validateMetaModel, hv]; try rfl⟩
  · intro m hv hw hm hs
    have hmm : lenMismatch m.means m.features.length = false := by
      cases hmeans : m.means with
      | none => simp [lenMismatch]
      | some ms => simp [lenMismatch, hm ms hmeans]
    have hsm : lenMismatch m.stds m.features.length = false := by
      cases hstds : m.stds with
      | none => simp [lenMismatch]
      | some ss => simp [lenMismatch, hs ss hstds]
    simp [validateMetaModel, hv, hw, hmm, hsm]

/-- Witness for C8: the checks fire (or pass) on concrete models. -/
theorem validateMetaModel_spec_witness :
    (∃ e, validateMetaModel ⟨"fsd-meta-v1", ["score"], [1, 2], 0, none, none, none⟩
      = .error e) ∧
    (∃ e, validateMetaModel ⟨"fsd-meta-v1", ["score"], [1], 0, some [], none, none⟩
      = .error e) ∧
    (∃ e, validateMetaModel ⟨"fsd-meta-v1", ["score"], [1], 0, some [0], some [], none⟩
      = .error e) ∧
    (∃ e, validateMetaModel ⟨"fsd-meta-v2", ["score"], [1], 0, none, none, none⟩
      = .error e) ∧
    validateMetaModel ⟨"fsd-meta-v1", ["score", "rr"], [1, 2], 3, some [0, 0],
        some [1, 1], some (1/2)⟩
      = .ok ⟨"fsd-meta-v1", ["score", "rr"], [1, 2], 3, some [0, 0], some [1, 1],
        some (1/2)⟩ := by
  refine ⟨?_, ?_, ?_, ?_, ?_⟩
  · exact validateMetaModel_spec.1 _ (by decide)
  · exact validateMetaModel_spec.2.1 _ [] rfl (by decide)
  · exact validateMetaModel_spec.2.2.1 _ [] rfl (by decide)
  · exact validateMetaModel_spec.2.2.2.1 _ (by decide)
  · exact validateMetaModel_spec.2.2.2.2 _ rfl (by decide)
      (by intro ms hms; cases hms; decide) (by intro ss hss; cases hss; decide)

theorem all_range'_iff (s n : ℕ) (f : ℕ → Bool) :
    ((List.range' s n).all f = true) ↔ ∀ j, s ≤ j → j < s + n → f j = true := by
  simp only [List.all_eq_true, List.mem_range'_1]
  exact ⟨fun hf j h1 h2 => hf j ⟨h1, h2⟩, fun hf j hj => hf j hj.1 hj.2⟩

theorem getD_eq_get_of_lt {α : Type} [Inhabited α] (l : List α) (j : ℕ)
    (hj : j < l.length) : l.getD j default = l.get ⟨j, hj⟩ := by
  rw [List.getD_eq_get?, List.get?_eq_get hj]
  rfl

/-- C6 (amended): `pivotHigh` at a valid index holds iff every candle in the
left window `[i-L, i-1]` has a *strictly smaller* high (an equal left high
disqualifies — the source tests `>=` on the left) and every candle in the
right window `[i+1, i+R]` has a high that is at most candle `i`'s (a strictly
greater right high disqualifies); symmetrically `pivotLow` (an equal left low
disqualifies, strictly lower right low disqualifies); out-of-range
neighbours are skipped. -/
theorem pivot_characterization (candles : List Candle) (i L R : ℕ)
    (h : i < candles.length) :
    (pivotHigh candles i L R = true ↔
      ((∀ j, j < i → i ≤ j + L → ∀ hj : j < candles.length,
          (candles.get ⟨j, hj⟩).high < (candles.get ⟨i, h⟩).high) ∧
        (∀ j, i < j → j ≤ i + R → ∀ hj : j < candles.length,
          (candles.get ⟨j, hj⟩).high ≤ (candles.get ⟨i, h⟩).high))) ∧
    (pivotLow candles i L R = true ↔
      ((∀ j, j < i → i ≤ j + L → ∀ hj : j < candles.length,
          (candles.get ⟨i, h⟩).low < (candles.get ⟨j, hj⟩).low) ∧
        (∀ j, i < j → j ≤ i + R → ∀ hj : j < candles.length,
          (candles.get ⟨i, h⟩).low ≤ (candles.get ⟨j, hj⟩).low))) := by
  constructor
  · rw [pivotHigh, List.get?_eq_get h]
    simp only [Bool.and_eq_true, all_range'_iff]
    constructor
    · rintro ⟨hl, hr⟩
      constructor
      · intro j h1 h2 hj
        have hm := hl j (by omega) (by omega)
        rw [getD_eq_get_of_lt candles j hj] at hm
        simpa using hm
      · intro j h1 h2 hj
        have hm := hr j (by omega) (by omega)
        rw [getD_eq_get_of_lt candles j hj] at hm
        simpa using hm
    · rintro ⟨hl, hr⟩
      constructor
      · intro j h1 h2
        have hj : j < candles.length := by omega
        rw [getD_eq_get_of_lt candles j hj]
        simpa using hl j (by omega) (by omega) hj
      · intro j h1 h2
        have hj : j < candles.length := by omega
        rw [getD_eq_get_of_lt candles j hj]
        simpa using hr j (by omega) (by omega) hj
  · rw [pivotLow, List.get?_eq_get h]
    simp only [Bool.and_eq_true, all_range'_iff]
    constructor
    · rintro ⟨hl, hr⟩
      constructor
      · intro j h1 h2 hj
        have hm := hl j (by omega) (by omega)
        rw [getD_eq_get_of_lt candles j hj] at hm
        simpa using hm
      · intro j h1 h2 hj
        have hm := hr j (by omega) (by omega)
        rw [getD_eq_get_of_lt candles j hj] at hm
        simpa using hm
    · rintro ⟨hl, hr⟩
      constructor
      · intro j h1 h2
        have hj : j < candles.length := by omega
        rw [getD_eq_get_of_lt candles j hj]
        simpa using hl j (by omega) (by omega) hj
      · intro j h1 h2
        have hj : j < candles.length := by omega
        rw [getD_eq_get_of_lt candles j hj]
        simpa using hr j (by omega) (by omega) hj

/-- C6 counterexample: at `c6Candles`, index `1` with left = right = 1, the
left neighbour's high *equals* candle 1's high; the claim's strict-inequality
rule (transcribed as `specPivotHigh`) accepts the pivot, but the source's
`pivotHigh` rejects it. -/
theorem pivotHigh_equal_left_high_counterexample :
    specPivotHigh c6Candles 1 1 1 = true ∧
    (c6Candles.getD 0 default).high = (c6Candles.getD 1 default).high ∧
    pivotHigh c6Candles 1 1 1 = false := by decide

/-- A series with a genuine strict pivot high at index 1. -/
def c6Witness : List Candle :=
  [⟨0, 85, 90, 80, 85, 1⟩, ⟨1, 95, 100, 90, 95, 1⟩, ⟨2, 85, 90, 80, 85, 1⟩]

/-- Witness for C6's amended characterisation at a concrete series. -/
theorem pivot_characterization_witness :
    pivotHigh c6Witness 1 1 1 = true := by
  refine ((pivot_characterization c6Witness 1 1 1 (by decide)).1).mpr ⟨?_, ?_⟩
  · intro j h1 h2 hj
    have hj0 : j = 0 := by omega
    subst hj0
    show (90 : ℚ) < 100
    norm_num
  · intro j h1 h2 hj
    have hj2 : j = 2 := by
      simp [c6Witness] at hj
      omega
    subst hj2
    show (90 : ℚ) ≤ 100
    norm_num

/-- C5: below `minTradesToDecide` evaluated (non-open) trades in the rolling
window, `computeAutoMuteDecision` returns `muted = false` with the
not-enough-data reason regardless of the trades' r-values; at or above the
minimum, `muted = true` exactly when the window expectancy (mean r) is
negative. -/
theorem computeAutoMuteDecision_spec
    (symbol timeframe dataSource gateMode : String) (signals : List Signal)
    (candles : List Candle) (maxHoldBars windowTrades minTradesToDecide : ℕ)
    (costs : Option ExecutionCosts) :
    (((autoMuteWindow symbol timeframe dataSource gateMode signals candles
        maxHoldBars windowTrades costs).length < minTradesToDecide) →
      (computeAutoMuteDecision symbol timeframe dataSource gateMode signals
          candles maxHoldBars windowTrades minTradesToDecide costs).muted = false ∧
      (computeAutoMuteDecision symbol timeframe dataSource gateMode signals
          candles maxHoldBars windowTrades minTradesToDecide costs).reason
        = .notEnoughTrades (autoMuteWindow symbol timeframe dataSource gateMode
            signals candles maxHoldBars windowTrades costs).length
          minTradesToDecide) ∧
    ((minTradesToDecide ≤ (autoMuteWindow symbol timeframe dataSource gateMode
        signals candles maxHoldBars windowTrades costs).length) →
      ((computeAutoMuteDecision symbol timeframe dataSource gateMode signals
          candles maxHoldBars windowTrades minTradesToDecide costs).muted = true ↔
        ((autoMuteWindow symbol timeframe dataSource gateMode signals candles
            maxHoldBars windowTrades costs).foldl (fun acc t => acc + t.r) 0)
          / ((autoMuteWindow symbol timeframe dataSource gateMode signals
              candles maxHoldBars windowTrades costs).length : ℚ) < 0)) := by
  constructor
  · intro hlt
    constructor
    · simp [computeAutoMuteDecision, hlt]
    · simp [computeAutoMuteDecision, hlt]
  · intro hge
    have hnlt : ¬ (autoMuteWindow symbol timeframe dataSource gateMode signals
        candles maxHoldBars windowTrades costs).length < minTradesToDecide := by
      omega
    simp [computeAutoMuteDecision, hnlt]

theorem c5_eval_concrete :
    evaluateSignal c5Signal c5Candles (some 60) none = ⟨c5Signal, .stop, -1, 1⟩ := by
  have hf : firstIndexAtOrAfter [1, 2, 3] 1 = 0 := by
    simp [firstIndexAtOrAfter, fiaaGo]
  have hscan : evalScan ⟨"s1", "BTCUSDT", "15m", Side.long, 100, 95, 110, 2, 80, 1, none, none⟩
      [⟨1, 100, 101, 99, 100, 1⟩, ⟨2, 96, 97, 90, 92, 1⟩, ⟨3, 92, 93, 91, 92, 1⟩]
      none true 100 95 110 5 0 2 1
      = some ⟨⟨"s1", "BTCUSDT", "15m", Side.long, 100, 95, 110, 2, 80, 1, none, none⟩,
        TradeOutcome.stop, -1, 1⟩ := by
    simp [evalScan, costInR, stopTouched, tpTouched]
    norm_num
  simp only [evaluateSignal]
  norm_num [c5Candles, c5Signal, evalStart, evalEnd, hf, hscan]

/-- Witness for C5: with one evaluated stop trade, a minimum of 20 leaves the
stream unmuted (not enough data) while a minimum of 1 mutes it (negative
expectancy). -/
theorem computeAutoMuteDecision_spec_witness :
    (computeAutoMuteDecision "BTCUSDT" "15m" "futures" "default" [c5Signal]
        c5Candles 60 20 20 none).muted = false ∧
    (computeAutoMuteDecision "BTCUSDT" "15m" "futures" "default" [c5Signal]
        c5Candles 60 20 1 none).muted = true := by
  have hlit : evaluateSignal ⟨"s1", "BTCUSDT", "15m", Side.long, 100, 95, 110, 2,
      80, 1, none, none⟩ c5Candles (some 60) none
      = ⟨c5Signal, TradeOutcome.stop, -1, 1⟩ := c5_eval_concrete
  have hwin : autoMuteWindow "BTCUSDT" "15m" "futures" "default" [c5Signal]
      c5Candles 60 20 none = [⟨c5Signal, .stop, -1, 1⟩] := by
    simp [autoMuteWindow, sliceLast, c5Signal, hlit]
  constructor
  · exact ((computeAutoMuteDecision_spec "BTCUSDT" "15m" "futures" "default"
      [c5Signal] c5Candles 60 20 20 none).1 (by rw [hwin]; norm_num)).1
  · refine ((computeAutoMuteDecision_spec "BTCUSDT" "15m" "futures" "default"
      [c5Signal] c5Candles 60 20 1 none).2 (by rw [hwin]; norm_num)).mpr ?_
    rw [hwin]
    norm_num


theorem trueRanges_length (candles : List Candle) :
    (trueRanges candles).length = candles.length := by
  simp [trueRanges]

theorem scanl_head_drop {α β : Type} (g : β → α → β) (b : β) (l : List α) :
    List.scanl g b l = b :: (List.scanl g b l).drop 1 := by
  cases l <;> simp [List.scanl]

theorem atrLoop_lead (period : ℕ) (seed : ℚ) :
    ∀ (k : ℕ) (l : List ℚ) (idx : ℕ) (prev : Option ℚ),
      idx + k = period → k ≤ l.length →
      atrLoop period seed idx prev l
        = List.replicate k none ++ atrLoop period seed period prev (l.drop k) := by
  intro k
  induction k with
  | zero =>
    intro l idx prev h1 h2
    have : idx = period := by omega
    subst this
    simp
  | succ n ih =>
    intro l idx prev h1 h2
    cases l with
    | nil => simp at h2
    | cons tr rest =>
      have hidx : idx < period := by omega
      simp only [atrLoop, if_pos hidx]
      rw [ih rest (idx + 1) prev (by omega) (by simpa using h2)]
      simp [List.replicate_succ]

theorem atrLoop_after (period : ℕ) (seed : ℚ) :
    ∀ (l : List ℚ) (idx : ℕ) (p : ℚ), period < idx →
      atrLoop period seed idx (some p) l
        = ((List.scanl (wilderStep period) p l).drop 1).map some := by
  intro l
  induction l with
  | nil => intro idx p h; simp [atrLoop, List.scanl]
  | cons tr rest ih =>
    intro idx p h
    have h1 : ¬ idx < period := by omega
    have h2 : ¬ idx = period := by omega
    simp only [atrLoop, if_neg h1, if_neg h2]
    rw [ih (idx + 1) _ (by omega)]
    rw [List.scanl]
    rw [scanl_head_drop (wilderStep period) (wilderStep period p tr) rest]
    simp [wilderStep]

theorem atrLoop_seed (period : ℕ) (seed : ℚ) (prev : Option ℚ) (tr : ℚ)
    (rest : List ℚ) :
    atrLoop period seed period prev (tr :: rest)
      = (List.scanl (wilderStep period) seed rest).map some := by
  simp only [atrLoop, lt_irrefl, if_neg (lt_irrefl period), if_pos rfl]
  rw [atrLoop_after period seed rest (period + 1) seed (by omega)]
  rw [scanl_head_drop (wilderStep period) seed rest]
  simp

theorem atr_closed_form (candles : List Candle) (period : ℕ)
    (hlen : period < candles.length) :
    atr candles period
      = List.replicate period none ++
        (List.scanl (wilderStep period)
          (average (((trueRanges candles).drop 1).take period))
          ((trueRanges candles).drop (period + 1))).map some := by
  have hne : ¬ candles = [] := by
    intro h
    subst h
    simp at hlen
  rw [atr, if_neg hne]
  have hlen' : period < (trueRanges candles).length := by
    rw [trueRanges_length]
    exact hlen
  rw [atrLoop_lead period _ period _ 0 none (by omega) (by omega)]
  cases hd : (trueRanges candles).drop period with
  | nil =>
    exfalso
    have := List.length_drop period (trueRanges candles)
    rw [hd] at this
    simp at this
    omega
  | cons tr rest =>
    rw [atrLoop_seed]
    have hrest : (trueRanges candles).drop (period + 1) = rest := by
      have : (trueRanges candles).drop (period + 1)
          = ((trueRanges candles).drop period).drop 1 := by
        rw [List.drop_drop]
      rw [this, hd]
      simp
    rw [hrest]


theorem scanl_get?_foldl {α β : Type} (g : β → α → β) :
    ∀ (l : List α) (b : β) (n : ℕ), n ≤ l.length →
      (List.scanl g b l).get? n = some (List.foldl g b (l.take n)) := by
  intro l
  induction l with
  | nil =>
    intro b n hn
    have : n = 0 := by simpa using hn
    subst this
    simp [List.scanl]
  | cons a t ih =>
    intro b n hn
    cases n with
    | zero => simp [List.scanl]
    | succ m =>
      simp only [List.scanl, List.get?, List.take, List.foldl_cons]
      exact ih (g b a) m (by simpa using hn)

theorem foldl_take_succ {α β : Type} (g : β → α → β) (b : β) (l : List α)
    (k : ℕ) (hk : k < l.length) :
    List.foldl g b (l.take (k + 1)) = g (List.foldl g b (l.take k)) (l.get ⟨k, hk⟩) := by
  rw [← List.take_concat_get l k hk, List.concat_eq_append, List.foldl_append]
  simp

theorem trueRanges_get? (candles : List Candle) (i : ℕ) (h1 : 1 ≤ i)
    (hi : i < candles.length) :
    (trueRanges candles).get? i = some (trueRangeAt candles i) := by
  have h0 : ¬ i = 0 := by omega
  have hi1 : i - 1 < candles.length := by omega
  simp only [trueRanges, List.get?_map, List.get?_range hi, Option.map_some']
  rw [List.get?_eq_get hi1]
  simp only [h0, if_false]
  simp [trueRangeAt, List.getElem?_eq_getElem hi1]


theorem seed_window_eq (candles : List Candle) (period : ℕ)
    (hlen : period < candles.length) :
    ((trueRanges candles).drop 1).take period
      = (List.range period).map (fun k => trueRangeAt candles (k + 1)) := by
  apply List.ext_get?
  intro n
  by_cases hn : n < period
  · rw [List.get?_take hn, List.get?_drop]
    rw [trueRanges_get? candles (1 + n) (by omega) (by omega)]
    rw [List.get?_map, List.get?_range hn]
    simp [Nat.add_comm]
  · rw [List.get?_eq_none.2, List.get?_eq_none.2]
    · simp
      omega
    · have h1 : (1 : ℕ) ≤ (trueRanges candles).length := by
        rw [trueRanges_length]
        omega
      simp [trueRanges_length]
      omega

/-- C7: for a series longer than the period (period ≥ 1), `atr` has the
input's length, is `NaN` strictly below index `period`, seeds at index
`period` with the simple average of the first `period` true ranges of the
series (the true ranges computed from a previous close, i.e. bars
`1 … period`), and thereafter follows Wilder smoothing
`(prevATR*(period-1) + TR_i) / period`. -/
theorem atr_spec (candles : List Candle) (period : ℕ) (hp : 1 ≤ period)
    (hlen : period < candles.length) :
    (atr candles period).length = candles.length ∧
    (∀ i, i < period → (atr candles period).get? i = some none) ∧
    ((atr candles period).get? period
      = some (some ((((List.range period).map
          (fun k => trueRangeAt candles (k + 1))).sum) / (period : ℚ)))) ∧
    (∀ i, period < i → i < candles.length →
      ∃ prev, (atr candles period).get? (i - 1) = some (some prev) ∧
        (atr candles period).get? i
          = some (some ((prev * ((period : ℚ) - 1) + trueRangeAt candles i)
            / (period : ℚ)))) := by
  have CF := atr_closed_form candles period hlen
  have htrs : (trueRanges candles).length = candles.length := trueRanges_length candles
  have hrestlen : ((trueRanges candles).drop (period + 1)).length
      = candles.length - (period + 1) := by
    simp [htrs]
  have hseed : average (((trueRanges candles).drop 1).take period)
      = (((List.range period).map (fun k => trueRangeAt candles (k + 1))).sum)
        / (period : ℚ) := by
    rw [seed_window_eq candles period hlen, average]
    have hne : (List.range period).map (fun k => trueRangeAt candles (k + 1)) ≠ [] := by
      simp [List.map_eq_nil, List.range_eq_nil]
      omega
    simp [hne]
  refine ⟨?_, ?_, ?_, ?_⟩
  · rw [CF]
    simp [List.length_scanl, hrestlen]
    omega
  · intro i hi
    rw [CF, List.get?_append (by simpa using hi)]
    rw [List.get?_eq_get (by simpa using hi)]
    simp
  · rw [CF, List.get?_append_right (by simp)]
    simp only [List.length_replicate, Nat.sub_self]
    rw [List.get?_map, scanl_get?_foldl (wilderStep period) _ _ 0 (by omega)]
    simp only [List.take_zero, List.foldl_nil, Option.map_some']
    rw [hseed]
  · intro i hip hin
    have hjle : i - period ≤ ((trueRanges candles).drop (period + 1)).length := by
      rw [hrestlen]
      omega
    refine ⟨List.foldl (wilderStep period)
      (average (((trueRanges candles).drop 1).take period))
      (((trueRanges candles).drop (period + 1)).take (i - period - 1)), ?_, ?_⟩
    · rw [CF, List.get?_append_right (by simp; omega)]
      simp only [List.length_replicate]
      rw [List.get?_map, scanl_get?_foldl (wilderStep period) _ _ (i - 1 - period)
        (by omega)]
      have heq : i - 1 - period = i - period - 1 := by omega
      rw [heq]
      simp
    · rw [CF, List.get?_append_right (by simp; omega)]
      simp only [List.length_replicate]
      rw [List.get?_map, scanl_get?_foldl (wilderStep period) _ _ (i - period)
        (by omega)]
      have hk : i - period - 1 < ((trueRanges candles).drop (period + 1)).length := by
        rw [hrestlen]
        omega
      have hstep : i - period = (i - period - 1) + 1 := by omega
      rw [hstep, foldl_take_succ (wilderStep period) _ _ (i - period - 1) hk]
      have hgetrest : ((trueRanges candles).drop (period + 1)).get ⟨i - period - 1, hk⟩
          = trueRangeAt candles i := by
        have hsome : ((trueRanges candles).drop (period + 1)).get? (i - period - 1)
            = some (trueRangeAt candles i) := by
          rw [List.get?_drop]
          have harith : period + 1 + (i - period - 1) = i := by omega
          rw [harith]
          exact trueRanges_get? candles i (by omega) hin
        have hother := List.get?_eq_get hk
        rw [hsome] at hother
        exact (Option.some.inj hother).symm
      rw [hgetrest]
      simp [wilderStep]


/-- Witness for C7 at a concrete four-bar series with period 1. -/
theorem atr_spec_witness :
    (atr demoCandles 1).length = 4 ∧ (atr demoCandles 1).get? 0 = some none := by
  have h := atr_spec demoCandles 1 (by decide) (by decide)
  refine ⟨?_, h.2.1 0 (by decide)⟩
  rw [h.1]
  decide


theorem demo_atr_eq :
    atr [⟨0, 100, 101, 99, 100, 1⟩, ⟨1, 100, 101, 99, 100, 1⟩,
        ⟨2, 100, 101, 99, 100, 1⟩, ⟨3, 100, 101, 99, 100, 1⟩] 1
      = [none, some 2, some 2, some 2] := by
  rw [atr, if_neg (by simp)]
  norm_num [trueRanges, atrLoop, average, List.range_succ]

theorem demo_recent_eq : recentAtrPct demoCandles 1 4 = [2, 2, 2] := by
  norm_num [recentAtrPct, atrPctSeries, demo_atr_eq, jsSliceNeg, demoCandles,
    flatCandle, List.range_succ, List.filterMap_cons]

theorem demo_median_eq : median [(2 : ℚ), 2, 2] = some 2 := by
  rw [median, if_neg (by simp)]
  norm_num [List.insertionSort, List.orderedInsert]

theorem demoCandles_length : demoCandles.length = 4 := by
  rw [demoCandles]
  rfl

theorem demo_gate_eq :
    buildDynamicGate demoCandles demoGate 1 4 true
      = ⟨⟨0.8, 1.47, 1.5, 2.5, false, 4, 80, 1.1⟩, some ⟨some 2, some 2, 1, 4⟩⟩ := by
  rw [buildDynamicGate]
  simp only [demo_recent_eq, demoCandles_length, demo_median_eq,
    List.getLast?_cons_cons, List.getLast?_singleton]
  norm_num [clampOpt, jsClamp, demoGate]

/-- C1 counterexample: four flat-volatility candles whose trailing ATR%
median (2) equals the base gate's band midpoint `(1.5+2.5)/2 = 2` exactly
(the adjuster acts, `ratio = 1`), yet the returned gate differs from the
base gate: `minRR` is 1.47 instead of 1.4. -/
theorem buildDynamicGate_ratio_one_counterexample :
    median (recentAtrPct demoCandles 1 4)
      = some ((demoGate.atrPctMin + demoGate.atrPctMax) / 2) ∧
    (buildDynamicGate demoCandles demoGate 1 4 true).info
      = some ⟨some 2, some 2, 1, 4⟩ ∧
    (buildDynamicGate demoCandles demoGate 1 4 true).gate.minRR = 147/100 ∧
    demoGate.minRR = 14/10 ∧
    (buildDynamicGate demoCandles demoGate 1 4 true).gate ≠ demoGate := by
  refine ⟨?_, ?_, ?_, ?_, ?_⟩
  · rw [demo_recent_eq, demo_median_eq]
    norm_num [demoGate]
  · rw [demo_gate_eq]
  · rw [demo_gate_eq]
    norm_num
  · norm_num [demoGate]
  · rw [demo_gate_eq]
    simp [demoGate]
    norm_num

/-- C1 (amended): with enough samples and the trailing ATR% median exactly at
the base band midpoint (`ratio = 1`), `buildDynamicGate` leaves `atrPctMin`,
`atrPctMax`, `maxStopPct` and `stopAtrMult` unchanged (the base values lying
within the absolute clamp bounds), but `minRR` is nudged up by 5% (the
`ratio ≥ 1` branch): the returned gate is the base gate with
`minRR := minRR * 1.05`, not the base gate itself. -/
theorem buildDynamicGate_ratio_one (candles : List Candle)
    (baseGate : QualityGateConfig) (atrPeriod lookback : ℕ)
    (hlen : ¬ candles.length < min 80 lookback)
    (hsamples : ¬ (recentAtrPct candles atrPeriod lookback).length
      < min 50 (lookback / 2))
    (hmid : median (recentAtrPct candles atrPeriod lookback)
      = some ((baseGate.atrPctMin + baseGate.atrPctMax) / 2))
    (hmidpos : 0 < (baseGate.atrPctMin + baseGate.atrPctMax) / 2)
    (hb1 : 0.01 ≤ baseGate.atrPctMin) (hb2 : baseGate.atrPctMin ≤ 10)
    (hb3 : 0.02 ≤ baseGate.atrPctMax) (hb4 : baseGate.atrPctMax ≤ 20)
    (hb5 : baseGate.atrPctMin ≤ baseGate.atrPctMax)
    (hb6 : 0 ≤ baseGate.maxStopPct) (hb7 : 0 ≤ baseGate.stopAtrMult)
    (hb8 : 0 ≤ baseGate.minRR) :
    (buildDynamicGate candles baseGate atrPeriod lookback true).gate
      = { baseGate with minRR := baseGate.minRR * 1.05 } := by
  have hmidne : (baseGate.atrPctMin + baseGate.atrPctMax) / 2 ≠ 0 :=
    ne_of_gt hmidpos
  have h2 : ¬ ((baseGate.atrPctMin + baseGate.atrPctMax) / 2 ≤ 0) :=
    not_le.2 hmidpos
  have hratio : clampOpt ((median (recentAtrPct candles atrPeriod lookback)).map
      (· / ((baseGate.atrPctMin + baseGate.atrPctMax) / 2))) 0.6 1.6 = 1 := by
    rw [hmid]
    simp only [clampOpt, Option.map_some']
    rw [div_self hmidne]
    exact jsClamp_eq_self (by norm_num) (by norm_num)
  rw [buildDynamicGate]
  simp only [Bool.not_true, Bool.false_eq_true, if_false, if_neg hlen,
    if_neg hsamples, if_neg h2, hratio, mul_one, ge_iff_le, le_refl, if_pos]
  rw [jsClamp_eq_self hb1 hb2, jsClamp_eq_self hb3 hb4,
    if_neg (not_lt.2 hb5),
    jsClamp_eq_self (by nlinarith) (by nlinarith),
    jsClamp_eq_self (by nlinarith) (by nlinarith),
    jsClamp_eq_self (by nlinarith) (by nlinarith)]

/-- Witness for C1's amended statement at the concrete flat series; the gate
comes back with only `minRR` changed, to `1.4 * 1.05 = 1.47`. -/
theorem buildDynamicGate_ratio_one_witness :
    (buildDynamicGate demoCandles demoGate 1 4 true).gate
      = { demoGate with minRR := demoGate.minRR * 1.05 } :=
  buildDynamicGate_ratio_one demoCandles demoGate 1 4
    (by rw [demoCandles_length]; norm_num)
    (by rw [demo_recent_eq]; norm_num)
    (by rw [demo_recent_eq, demo_median_eq]; norm_num [demoGate])
    (by norm_num [demoGate]) (by norm_num [demoGate])
    (by norm_num [demoGate]) (by norm_num [demoGate]) (by norm_num [demoGate])
    (by norm_num [demoGate]) (by norm_num [demoGate]) (by norm_num [demoGate])
    (by norm_num [demoGate])


theorem wfLoop_props (expF logF sqrtF : ℚ → ℚ) (rows : List WfRow)
    (total testSize foldsMax : ℕ) (training : TrainOpts)
    (htot : total ≤ rows.length) :
    ∀ (fuel trainEnd fold : ℕ), foldsMax + 1 - fold ≤ fuel →
      (wfLoop expF logF sqrtF rows total testSize foldsMax training
          trainEnd fold).length ≤ foldsMax + 1 - fold ∧
      (∀ k (hk : k < (wfLoop expF logF sqrtF rows total testSize foldsMax
          training trainEnd fold).length),
        ((wfLoop expF logF sqrtF rows total testSize foldsMax training
            trainEnd fold).get ⟨k, hk⟩).trainSize = trainEnd + k * testSize ∧
        ((wfLoop expF logF sqrtF rows total testSize foldsMax training
            trainEnd fold).get ⟨k, hk⟩).testSize = testSize) := by
  intro fuel
  induction fuel with
  | zero =>
    intro trainEnd fold hfuel
    have hg : ¬ (trainEnd + testSize ≤ total ∧ fold ≤ foldsMax) := by omega
    rw [wfLoop, dif_neg hg]
    simp
  | succ n ih =>
    intro trainEnd fold hfuel
    rw [wfLoop]
    by_cases hg : trainEnd + testSize ≤ total ∧ fold ≤ foldsMax
    · rw [dif_pos hg]
      by_cases hbrk : (standardize sqrtF ((rows.take trainEnd).map (·.x))).2.2.length = 0
          ∨ (((rows.drop trainEnd).take testSize).map (·.x)).length = 0
      · rw [if_pos hbrk]
        simp
      · rw [if_neg hbrk]
        have htail := ih (trainEnd + testSize) (fold + 1) (by omega)
        constructor
        · simp only [List.length_cons]
          omega
        · intro k hk
          cases k with
          | zero =>
            constructor
            · show (wfFoldRecord expF logF sqrtF rows testSize training
                  trainEnd fold).trainSize = trainEnd + 0 * testSize
              simp only [wfFoldRecord, List.length_take]
              omega
            · show (wfFoldRecord expF logF sqrtF rows testSize training
                  trainEnd fold).testSize = testSize
              simp only [wfFoldRecord, List.length_take, List.length_drop]
              omega
          | succ m =>
            have hk' : m < (wfLoop expF logF sqrtF rows total testSize foldsMax
                training (trainEnd + testSize) (fold + 1)).length := by
              simpa using hk
            have hm := htail.2 m hk'
            simp only [List.get_cons_succ]
            exact ⟨by rw [hm.1]; ring, hm.2⟩
    · rw [dif_neg hg]
      simp


/-- C9: walk-forward folds have pairwise disjoint, strictly chronologically
increasing test windows (fold `j`'s test window `[trainSize_j, trainSize_j +
testSize_j)` ends at or before fold `k`'s start for `j < k`, with positive
test sizes), the number of folds never exceeds the configured `folds`, and
degenerate input (fewer than 100 rows, in particular too-short input)
terminates with zero folds rather than raising.  Stated for every choice of
the floating-point primitives `exp`, `log`, `sqrt`. -/
theorem runWalkForward_spec (expF logF sqrtF : ℚ → ℚ) (rows : List WfRow)
    (opts : WfOpts) :
    ((runWalkForward expF logF sqrtF rows opts).length ≤ opts.folds) ∧
    (∀ j k (hj : j < (runWalkForward expF logF sqrtF rows opts).length)
        (hk : k < (runWalkForward expF logF sqrtF rows opts).length), j < k →
      ((runWalkForward expF logF sqrtF rows opts).get ⟨j, hj⟩).trainSize
          + ((runWalkForward expF logF sqrtF rows opts).get ⟨j, hj⟩).testSize
        ≤ ((runWalkForward expF logF sqrtF rows opts).get ⟨k, hk⟩).trainSize) ∧
    (∀ k (hk : k < (runWalkForward expF logF sqrtF rows opts).length),
      0 < ((runWalkForward expF logF sqrtF rows opts).get ⟨k, hk⟩).testSize) ∧
    (rows.length < 100 → runWalkForward expF logF sqrtF rows opts = []) := by
  rcases Nat.eq_zero_or_pos rows.length with h0 | h0
  · have hEq : runWalkForward expF logF sqrtF rows opts = [] := by
      rw [runWalkForward]
      simp [h0]
    rw [hEq]
    exact ⟨by simp, fun j k hj hk _ => absurd hj (by simp),
      fun k hk => absurd hk (by simp), fun _ => rfl⟩
  · have h0' : ¬ rows.length = 0 := by omega
    have hEq : runWalkForward expF logF sqrtF rows opts
        = wfLoop expF logF sqrtF rows rows.length
          (max 50 (⌊(rows.length : ℚ) * opts.testFraction⌋).toNat) opts.folds
          opts.training
          (max (⌊(rows.length : ℚ) * opts.minTrainFraction⌋).toNat
            (max 50 (⌊(rows.length : ℚ) * opts.testFraction⌋).toNat)) 1 := by
      rw [runWalkForward]
      simp [h0']
    have hT50 : 50 ≤ max 50 (⌊(rows.length : ℚ) * opts.testFraction⌋).toNat :=
      le_max_left _ _
    have hTM : max 50 (⌊(rows.length : ℚ) * opts.testFraction⌋).toNat
        ≤ max (⌊(rows.length : ℚ) * opts.minTrainFraction⌋).toNat
          (max 50 (⌊(rows.length : ℚ) * opts.testFraction⌋).toNat) :=
      le_max_right _ _
    obtain ⟨hlen, hpoint⟩ := wfLoop_props expF logF sqrtF rows rows.length
      (max 50 (⌊(rows.length : ℚ) * opts.testFraction⌋).toNat) opts.folds
      opts.training (le_refl _) (opts.folds + 1)
      (max (⌊(rows.length : ℚ) * opts.minTrainFraction⌋).toNat
        (max 50 (⌊(rows.length : ℚ) * opts.testFraction⌋).toNat)) 1 (by omega)
    rw [hEq]
    refine ⟨le_trans hlen (by omega), ?_, ?_, ?_⟩
    · intro j k hj hk hjk
      obtain ⟨hj1, hj2⟩ := hpoint j hj
      obtain ⟨hk1, _⟩ := hpoint k hk
      rw [hj1, hj2, hk1]
      have hmul : (j + 1) * (max 50 (⌊(rows.length : ℚ) * opts.testFraction⌋).toNat)
          ≤ k * (max 50 (⌊(rows.length : ℚ) * opts.testFraction⌋).toNat) :=
        Nat.mul_le_mul_right _ (by omega)
      have hring : ∀ M T : ℕ, M + j * T + T = M + (j + 1) * T := by
        intro M T
        ring
      rw [hring]
      omega
    · intro k hk
      rw [(hpoint k hk).2]
      omega
    · intro hlt
      rw [wfLoop, dif_neg (by rintro ⟨h1, _⟩; omega)]


/-- Witness for C9: 30 rows are degenerate (fewer than 100), so the loop
terminates with zero folds; the fold cap holds trivially. -/
theorem runWalkForward_spec_witness :
    runWalkForward (fun _ => 0) (fun _ => 0) (fun _ => 0)
      (List.replicate 30 ⟨[1], 1⟩) ⟨3/20, 1/2, 5, ⟨2, 3/20, 1/50⟩⟩ = [] ∧
    (runWalkForward (fun _ => 0) (fun _ => 0) (fun _ => 0)
      (List.replicate 30 ⟨[1], 1⟩) ⟨3/20, 1/2, 5, ⟨2, 3/20, 1/50⟩⟩).length ≤ 5 := by
  have h := runWalkForward_spec (fun _ => 0) (fun _ => 0) (fun _ => 0)
    (List.replicate 30 ⟨[1], 1⟩) ⟨3/20, 1/2, 5, ⟨2, 3/20, 1/50⟩⟩
  exact ⟨h.2.2.2 (by simp), h.1⟩


theorem evalScan_first_touch (signal : Signal) (candles : List Candle)
    (costs : Option ExecutionCosts) (isLong : Bool) (entry stop tp1 risk : ℚ)
    (start endIdx i : ℕ) (hi : i ≤ endIdx)
    (htouch : stopTouched isLong stop (candles.getD i default) = true ∨
      tpTouched isLong tp1 (candles.getD i default) = true) :
    ∀ (n j : ℕ), i - j = n → j ≤ i →
      (∀ l, j ≤ l → l < i →
        stopTouched isLong stop (candles.getD l default) = false ∧
        tpTouched isLong tp1 (candles.getD l default) = false) →
      evalScan signal candles costs isLong entry stop tp1 risk start endIdx j
        = (if stopTouched isLong stop (candles.getD i default) then
            some ⟨signal, .stop, -1 - costInR entry stop risk costs, i - start⟩
          else
            some ⟨signal, .tp1, signal.rr - costInR entry tp1 risk costs,
              i - start⟩) := by
  intro n
  induction n with
  | zero =>
    intro j h0 hji _hskip
    have hji' : j = i := by omega
    subst hji'
    rw [evalScan, dif_pos (by omega : j ≤ endIdx)]
    simp only [List.getD, List.get?_eq_getElem?] at htouch ⊢
    by_cases hs : stopTouched isLong stop (candles[j]?.getD default) = true
    · simp [hs]
    · have ht := htouch.resolve_left hs
      simp [hs, ht]
  | succ m ih =>
    intro j hm hji hskip
    have hjlt : j < i := by omega
    have hnj := hskip j (le_refl j) hjlt
    rw [evalScan, dif_pos (by omega : j ≤ endIdx)]
    simp only [hnj.1, hnj.2, Bool.false_eq_true, if_false]
    exact ih (j + 1) (by omega) (by omega) (fun l hl1 hl2 => hskip l (by omega) hl2)

/-- C3: for a signal with positive risk and entry covered by the candle
series, if bar `i` (strictly after the evaluation start, within the
`maxHoldBars` window) is the first bar at which the stop or TP1 is touched,
then `evaluateSignal` returns outcome `stop` with `r = -1 - cost` when the
stop is touched at `i` (including a same-bar tie with TP1, which the stop
wins), and outcome `tp1` with `r = rr - cost` when only TP1 is touched, with
`barsHeld = i - start` in both cases. -/
theorem evaluateSignal_first_touch (signal : Signal) (candles : List Candle)
    (maxHoldBarsOpt : Option ℕ) (costs : Option ExecutionCosts)
    (hne : ¬ candles.length = 0)
    (hcov : ¬ (signal.timestamp < (candles.map (·.time)).getD 0 0 ∨
      (candles.map (·.time)).getD ((candles.map (·.time)).length - 1) 0
        < signal.timestamp))
    (hentry : ¬ (signal.entry ≤ 0 ∨ |signal.entry - signal.stop| ≤ 0))
    (i : ℕ) (hi1 : evalStart signal candles < i)
    (hi2 : i ≤ evalEnd signal candles maxHoldBarsOpt)
    (htouch : stopTouched (signal.side == Side.long) signal.stop
        (candles.getD i default) = true ∨
      tpTouched (signal.side == Side.long) signal.tp1
        (candles.getD i default) = true)
    (hfirst : ∀ l, evalStart signal candles < l → l < i →
      stopTouched (signal.side == Side.long) signal.stop
        (candles.getD l default) = false ∧
      tpTouched (signal.side == Side.long) signal.tp1
        (candles.getD l default) = false) :
    evaluateSignal signal candles maxHoldBarsOpt costs
      = (if stopTouched (signal.side == Side.long) signal.stop
            (candles.getD i default) then
          ⟨signal, .stop,
            -1 - costInR signal.entry signal.stop
              |signal.entry - signal.stop| costs,
            i - evalStart signal candles⟩
        else
          ⟨signal, .tp1,
            signal.rr - costInR signal.entry signal.tp1
              |signal.entry - signal.stop| costs,
            i - evalStart signal candles⟩) := by
  have hscan := evalScan_first_touch signal candles costs
    (signal.side == Side.long) signal.entry signal.stop signal.tp1
    |signal.entry - signal.stop| (evalStart signal candles)
    (evalEnd signal candles maxHoldBarsOpt) i hi2 htouch
    (i - (evalStart signal candles + 1)) (evalStart signal candles + 1)
    rfl (by omega) (fun l hl1 hl2 => hfirst l (by omega) hl2)
  rw [evaluateSignal, if_neg hne, if_neg hcov, if_neg hentry, hscan]
  by_cases hs : stopTouched (signal.side == Side.long) signal.stop
      (candles.getD i default) = true
  · simp only [List.getD, List.get?_eq_getElem?] at hs
    simp [hs]
  · simp only [List.getD, List.get?_eq_getElem?] at hs
    simp [hs]


/-- Witness for C3: for the long signal entry 100 / stop 95 / tp1 110 / rr 2
with zero costs, the stop-first series yields outcome `stop` with `r = -1`
and the TP1-first series yields outcome `tp1` with `r = rr = 2`. -/
theorem evaluateSignal_first_touch_witness :
    evaluateSignal c5Signal c3StopCandles none none = ⟨c5Signal, .stop, -1, 1⟩ ∧
    evaluateSignal c5Signal c3TpCandles none none = ⟨c5Signal, .tp1, 2, 2⟩ := by
  have hst : evalStart c5Signal c3StopCandles = 0 := by
    norm_num [evalStart, firstIndexAtOrAfter, c3StopCandles, c5Signal]
    simp [fiaaGo]
  have hst2 : evalStart c5Signal c3TpCandles = 0 := by
    norm_num [evalStart, firstIndexAtOrAfter, c3TpCandles, c5Signal]
    simp [fiaaGo]
  have hstLit : evalStart ⟨"s1", "BTCUSDT", "15m", Side.long, 100, 95, 110, 2,
      80, 1, none, none⟩ c3StopCandles = 0 := hst
  have hst2Lit : evalStart ⟨"s1", "BTCUSDT", "15m", Side.long, 100, 95, 110, 2,
      80, 1, none, none⟩ c3TpCandles = 0 := hst2
  constructor
  · have h := evaluateSignal_first_touch c5Signal c3StopCandles none none
      (by norm_num [c3StopCandles])
      (by norm_num [c3StopCandles, c5Signal])
      (by norm_num [c5Signal])
      1 (by rw [hst]; norm_num)
      (by norm_num [evalEnd, hst, c3StopCandles])
      (Or.inl (by norm_num [stopTouched, c3StopCandles, c5Signal]))
      (fun l hl1 hl2 => absurd (hst ▸ hl1) (by omega))
    rw [h, if_pos (by norm_num [stopTouched, c3StopCandles, c5Signal])]
    norm_num [costInR, hst, hstLit, c5Signal]
  · have h := evaluateSignal_first_touch c5Signal c3TpCandles none none
      (by norm_num [c3TpCandles])
      (by norm_num [c3TpCandles, c5Signal])
      (by norm_num [c5Signal])
      2 (by rw [hst2]; norm_num)
      (by norm_num [evalEnd, hst2, c3TpCandles])
      (Or.inr (by norm_num [tpTouched, c3TpCandles, c5Signal]))
      (by
        intro l hl1 hl2
        rw [hst2] at hl1
        have hl : l = 1 := by omega
        subst hl
        constructor
        · norm_num [stopTouched, c3TpCandles, c5Signal]
        · norm_num [tpTouched, c3TpCandles, c5Signal])
    rw [h, if_neg (by norm_num [stopTouched, c3TpCandles, c5Signal])]
    norm_num [costInR, hst2, hst2Lit, c5Signal]


theorem getD_set_ne_of_ne {α : Type} [Inhabited α] (l : List α) (i m : ℕ)
    (a : α) (h : i ≠ m) :
    (l.set i a).getD m default = l.getD m default := by
  simp [List.getD_eq_getElem?_getD, List.getElem?_set_ne h]

theorem set_time_map (candles : List Candle) (j : ℕ) (c' : Candle)
    (hj : j < candles.length)
    (ht : c'.time = (candles.getD j default).time) :
    (candles.set j c').map (·.time) = candles.map (·.time) := by
  rw [List.map_set]
  apply List.ext_getElem?
  intro m
  by_cases hm : m = j
  · subst hm
    rw [List.getElem?_set_self']
    have hsome : (candles.map (·.time))[m]? = some ((candles.getD m default).time) := by
      rw [List.getElem?_map, List.getElem?_eq_getElem hj]
      simp [List.getD_eq_getElem?_getD, List.getElem?_eq_getElem hj]
    rw [hsome]
    simp [ht]
  · rw [List.getElem?_set_ne (Ne.symm hm)]

theorem evalScan_congr (signal : Signal) (costs : Option ExecutionCosts)
    (isLong : Bool) (entry stop tp1 risk : ℚ) (start endIdx : ℕ)
    (c1 c2 : List Candle) :
    ∀ (n j : ℕ), endIdx + 1 - j = n →
      (∀ l, j ≤ l → l ≤ endIdx → c1.getD l default = c2.getD l default) →
      evalScan signal c1 costs isLong entry stop tp1 risk start endIdx j
        = evalScan signal c2 costs isLong entry stop tp1 risk start endIdx j := by
  intro n
  induction n with
  | zero =>
    intro j h0 _
    have hj : ¬ j ≤ endIdx := by omega
    rw [evalScan, dif_neg hj, evalScan, dif_neg hj]
  | succ m ih =>
    intro j hm hagree
    by_cases hj : j ≤ endIdx
    · conv_lhs => rw [evalScan, dif_pos hj]
      conv_rhs => rw [evalScan, dif_pos hj]
      simp only [hagree j (le_refl j) hj]
      split_ifs with h1 h2
      · rfl
      · rfl
      · exact ih (j + 1) (by omega) (fun l hl1 hl2 => hagree l (by omega) hl2)
    · rw [evalScan, dif_neg hj, evalScan, dif_neg hj]

/-- C10 (implicit): `evaluateSignal` never inspects the entry bar itself —
the touch scan starts strictly after the first candle at or after the signal
timestamp, and the timeout exit reads a strictly later bar's close — so
replacing that first bar by any candle with the same `time` (in particular
one with different high/low) leaves outcome, `r` and `barsHeld` unchanged. -/
theorem evaluateSignal_ignores_entry_bar (signal : Signal)
    (candles : List Candle) (maxHoldBarsOpt : Option ℕ)
    (costs : Option ExecutionCosts) (c' : Candle)
    (hlt : evalStart signal candles < candles.length)
    (ht : c'.time = (candles.getD (evalStart signal candles) default).time) :
    evaluateSignal signal (candles.set (evalStart signal candles) c')
        maxHoldBarsOpt costs
      = evaluateSignal signal candles maxHoldBarsOpt costs := by
  have htimes := set_time_map candles (evalStart signal candles) c' hlt ht
  have hlen : (candles.set (evalStart signal candles) c').length = candles.length :=
    List.length_set candles _ c'
  have hstart : evalStart signal (candles.set (evalStart signal candles) c')
      = evalStart signal candles := by
    conv_lhs => rw [evalStart]
    rw [htimes, hlen, evalStart]
  have hend : evalEnd signal (candles.set (evalStart signal candles) c')
      maxHoldBarsOpt = evalEnd signal candles maxHoldBarsOpt := by
    conv_lhs => rw [evalEnd]
    rw [hstart, hlen, evalEnd]
  have hscan : evalScan signal (candles.set (evalStart signal candles) c') costs
      (signal.side == Side.long) signal.entry signal.stop signal.tp1
      |signal.entry - signal.stop| (evalStart signal candles)
      (evalEnd signal candles maxHoldBarsOpt) (evalStart signal candles + 1)
      = evalScan signal candles costs (signal.side == Side.long) signal.entry
        signal.stop signal.tp1 |signal.entry - signal.stop|
        (evalStart signal candles) (evalEnd signal candles maxHoldBarsOpt)
        (evalStart signal candles + 1) :=
    evalScan_congr signal costs (signal.side == Side.long) signal.entry
      signal.stop signal.tp1 |signal.entry - signal.stop|
      (evalStart signal candles) (evalEnd signal candles maxHoldBarsOpt)
      (candles.set (evalStart signal candles) c') candles
      (evalEnd signal candles maxHoldBarsOpt + 1 - (evalStart signal candles + 1))
      (evalStart signal candles + 1) rfl
      (fun l hl1 _hl2 => getD_set_ne_of_ne candles (evalStart signal candles) l c'
        (by omega))
  simp only [evaluateSignal]
  rw [hlen, htimes, hstart, hend, hscan]
  cases evalScan signal candles costs (signal.side == Side.long) signal.entry
      signal.stop signal.tp1 |signal.entry - signal.stop|
      (evalStart signal candles) (evalEnd signal candles maxHoldBarsOpt)
      (evalStart signal candles + 1) with
  | some t => rfl
  | none =>
    by_cases hbr : evalStart signal candles < evalEnd signal candles maxHoldBarsOpt
    · have hne2 : (candles.set (evalStart signal candles) c').getD
          (evalEnd signal candles maxHoldBarsOpt) default
          = candles.getD (evalEnd signal candles maxHoldBarsOpt) default :=
        getD_set_ne_of_ne candles (evalStart signal candles) _ c' (by omega)
      simp only [hne2]
    · rw [if_neg hbr, if_neg hbr]

/-- Witness for C10: widening the entry bar's high/low (150/50) leaves the
concrete evaluation unchanged. -/
theorem evaluateSignal_ignores_entry_bar_witness :
    evaluateSignal c5Signal (c5Candles.set 0 ⟨1, 100, 150, 50, 100, 1⟩)
        (some 60) none
      = evaluateSignal c5Signal c5Candles (some 60) none := by
  have h0 : evalStart c5Signal c5Candles = 0 := by
    norm_num [evalStart, firstIndexAtOrAfter, c5Candles, c5Signal]
    simp [fiaaGo]
  have h := evaluateSignal_ignores_entry_bar c5Signal c5Candles (some 60) none
    ⟨1, 100, 150, 50, 100, 1⟩ (by rw [h0]; norm_num [c5Candles])
    (by rw [h0]; norm_num [c5Candles])
  rw [h0] at h
  exact h


theorem updateZone_skip (b : ℚ) (c : Candle) (z : SupplyDemandZone)
    (h : c.time < z.startTime) : updateZone b c z = z := by
  rw [updateZone]
  by_cases hm : z.mitigated = true
  · rw [if_pos hm]
  · rw [if_neg hm, if_pos h]

theorem foldl_updateZone_skip (b : ℚ) :
    ∀ (cs : List Candle) (z : SupplyDemandZone),
      (∀ c ∈ cs, c.time < z.startTime) →
      cs.foldl (fun z c => updateZone b c z) z = z := by
  intro cs
  induction cs with
  | nil => intro z _; rfl
  | cons c rest ih =>
    intro z h
    simp only [List.foldl_cons]
    rw [updateZone_skip b c z (h c (by simp))]
    exact ih z (fun c' hc' => h c' (by simp [hc'])) 

theorem updateZone_keep (b : ℚ) (c : Candle) (z : SupplyDemandZone)
    (hf : z.fresh = false) (hl : z.lastTouch ≠ none) :
    (updateZone b c z).fresh = false ∧ (updateZone b c z).lastTouch ≠ none := by
  simp only [updateZone]
  split_ifs <;> simp_all

theorem foldl_updateZone_keep (b : ℚ) :
    ∀ (cs : List Candle) (z : SupplyDemandZone),
      z.fresh = false → z.lastTouch ≠ none →
      (cs.foldl (fun z c => updateZone b c z) z).fresh = false ∧
      (cs.foldl (fun z c => updateZone b c z) z).lastTouch ≠ none := by
  intro cs
  induction cs with
  | nil => intro z hf hl; exact ⟨hf, hl⟩
  | cons c rest ih =>
    intro z hf hl
    simp only [List.foldl_cons]
    obtain ⟨hf', hl'⟩ := updateZone_keep b c z hf hl
    exact ih _ hf' hl'

theorem updateZone_touch (b : ℚ) (c : Candle) (z : SupplyDemandZone)
    (hm : z.mitigated = false) (htime : ¬ c.time < z.startTime)
    (htouch : (match z.type_ with
      | ZoneType.demand => decide (c.low ≤ z.top) && decide (z.bottom ≤ c.low)
      | ZoneType.supply => decide (z.bottom ≤ c.high) && decide (c.high ≤ z.top))
        = true) :
    (updateZone b c z).fresh = false ∧
    (updateZone b c z).lastTouch = some c.time := by
  simp only [updateZone, hm, htime, if_false, Bool.false_eq_true, htouch, if_true]
  split_ifs <;> simp_all

theorem foldl_map_get? {α β : Type} (upd : β → α → α) :
    ∀ (cs : List β) (zs : List α) (k : ℕ),
      (cs.foldl (fun acc c => acc.map (fun z => upd c z)) zs).get? k
        = (zs.get? k).map (fun z => cs.foldl (fun z c => upd c z) z) := by
  intro cs
  induction cs with
  | nil =>
    intro zs k
    simp only [List.foldl_nil]
    cases zs.get? k <;> simp
  | cons c rest ih =>
    intro zs k
    simp only [List.foldl_cons]
    rw [ih (zs.map (fun z => upd c z)) k, List.get?_map]
    cases zs.get? k <;> simp

theorem createZones_mem (candles : List Candle) (atrValues : List (Option ℚ))
    (cfg : ZoneConfig) (z : SupplyDemandZone)
    (hz : z ∈ createZones candles atrValues cfg) :
    ∃ i a, i < candles.length ∧ atrValues.getD i none = some a ∧
      z.startTime = (candles.getD i default).time ∧
      z.mitigated = false ∧ z.fresh = true ∧
      ((z.type_ = ZoneType.demand ∧ z.bottom = (candles.getD i default).low ∧
          z.top = (candles.getD i default).low + a * cfg.atrMult) ∨
        (z.type_ = ZoneType.supply ∧ z.top = (candles.getD i default).high ∧
          z.bottom = (candles.getD i default).high - a * cfg.atrMult)) := by
  simp only [createZones, List.mem_flatMap, List.mem_range] at hz
  obtain ⟨i, hi, hmem⟩ := hz
  cases ha : atrValues.getD i none with
  | none =>
    rw [ha] at hmem
    simp at hmem
  | some a =>
    rw [ha] at hmem
    simp only [List.mem_append] at hmem
    refine ⟨i, a, hi, ha, ?_⟩
    rcases hmem with h | h
    · by_cases hph : pivotHigh candles i cfg.left cfg.right
      · rw [if_pos hph] at h
        simp only [List.mem_singleton] at h
        subst h
        simp [makeZone]
      · rw [if_neg hph] at h
        simp at h
    · by_cases hpl : pivotLow candles i cfg.left cfg.right
      · rw [if_pos hpl] at h
        simp only [List.mem_singleton] at h
        subst h
        simp [makeZone]
      · rw [if_neg hpl] at h
        simp at h

/-- C2 (amended): the touch pass of `detectSupplyDemandZones` skips only
candles strictly *before* a zone's start time, so the pivot candle itself is
replayed against its own zone; since a demand zone's bottom is the pivot
candle's low (and a supply zone's top its high) and the band has a
non-negative ATR buffer, the pivot candle always touches its own zone, and
every returned zone comes back with `fresh = false` and `lastTouch` set —
even when no candle later than the pivot ever intersects the band. -/
theorem detectSupplyDemandZones_pivot_self_touch (candles : List Candle)
    (atrValues : List (Option ℚ)) (cfg : ZoneConfig)
    (hsorted : List.Pairwise (fun a b : Candle => a.time < b.time) candles)
    (hmult : ∀ i a, atrValues.getD i none = some a → 0 ≤ a * cfg.atrMult) :
    ∀ z ∈ detectSupplyDemandZones candles atrValues cfg,
      z.fresh = false ∧ z.lastTouch ≠ none := by
  intro z hz
  simp only [detectSupplyDemandZones] at hz
  obtain ⟨k, hk⟩ := List.get?_of_mem hz
  rw [foldl_map_get?] at hk
  cases hz0 : (createZones candles atrValues cfg).get? k with
  | none =>
    rw [hz0] at hk
    simp at hk
  | some z0 =>
    rw [hz0] at hk
    simp only [Option.map_some', Option.some.injEq] at hk
    have hz0mem : z0 ∈ createZones candles atrValues cfg := List.get?_mem hz0
    obtain ⟨i, a, hi, ha, hstart, hmit, _hfresh, hband⟩ :=
      createZones_mem candles atrValues cfg z0 hz0mem
    have hgetD : candles.getD i default = candles[i] := by
      rw [getD_eq_get_of_lt candles i hi]
      rfl
    have hsplitc : candles = candles.take i ++ candles[i] :: candles.drop (i + 1) := by
      conv_lhs => rw [← List.take_append_drop i candles]
      rw [List.drop_eq_getElem_cons hi]
    rw [← hk, hsplitc, List.foldl_append, List.foldl_cons]
    have hpre : ∀ c ∈ candles.take i, c.time < z0.startTime := by
      intro c hc
      obtain ⟨j, hj, hget⟩ := List.mem_take_iff_getElem.1 hc
      rw [hstart, hgetD, ← hget]
      exact List.pairwise_iff_getElem.1 hsorted j i (by omega) hi (by omega)
    rw [foldl_updateZone_skip _ _ _ hpre]
    have hstep := updateZone_touch (cfg.invalidationBufferPct.getD 0.001)
      candles[i] z0 hmit
      (by rw [hstart, hgetD]; exact lt_irrefl _)
      (by
        have hma := hmult i a ha
        rcases hband with ⟨ht, hb, htop⟩ | ⟨ht, htop, hb⟩
        · rw [ht]
          simp only [Bool.and_eq_true, decide_eq_true_eq]
          rw [hb, htop, hgetD]
          constructor
          · linarith
          · exact le_refl _
        · rw [ht]
          simp only [Bool.and_eq_true, decide_eq_true_eq]
          rw [hb, htop, hgetD]
          constructor
          · linarith
          · exact le_refl _)
    exact foldl_updateZone_keep _ _ _ hstep.1 (by rw [hstep.2]; simp)


/-- C2 counterexample: on `c2Candles` the demand zone created at pivot index 1
has band `[90, 91]`, and no candle strictly later than its pivot candle
(time 2) ever intersects that band, yet `detectSupplyDemandZones` returns it
with `fresh = false` and `lastTouch = some 2` (the pivot candle itself is
replayed and counts as a touch). -/
theorem detectSupplyDemandZones_fresh_counterexample :
    ((detectSupplyDemandZones c2Candles c2Atr c2Cfg).map
        (fun z => (z.type_, z.pivotIndex, z.top, z.bottom, z.fresh, z.lastTouch)))
      = [(ZoneType.supply, 0, 101, 100, false, some 3),
         (ZoneType.demand, 1, 91, 90, false, some 2),
         (ZoneType.supply, 2, 101, 100, false, some 3)] ∧
    (∀ c ∈ c2Candles, 2 < c.time → ¬ (c.low ≤ 91 ∧ 90 ≤ c.low)) := by
  constructor
  · norm_num [detectSupplyDemandZones, createZones, updateZone, makeZone,
      pivotHigh, pivotLow, c2Candles, c2Atr, c2Cfg, List.range_succ]
  · decide

theorem detectSupplyDemandZones_pivot_self_touch_witness :
    (detectSupplyDemandZones c2Candles c2Atr c2Cfg).all
      (fun z => !z.fresh && z.lastTouch.isSome) = true := by
  rw [List.all_eq_true]
  intro z hz
  obtain ⟨hf, hl⟩ := detectSupplyDemandZones_pivot_self_touch c2Candles c2Atr c2Cfg
    (by decide)
    (by
      intro i a ha
      rcases i with _ | _ | _ | n
      · simp [c2Atr] at ha
        rw [← ha]
        norm_num [c2Cfg]
      · simp [c2Atr] at ha
        rw [← ha]
        norm_num [c2Cfg]
      · simp [c2Atr] at ha
        rw [← ha]
        norm_num [c2Cfg]
      · simp [c2Atr] at ha)
    z hz
  simp only [hf, Bool.not_false, Bool.true_and]
  exact Option.ne_none_iff_isSome.1 hl


theorem simBody_stop (p : SimParams) (i : ℕ) (c : Candle) (s : SimState)
    (h : (if p.isLong then decide (c.low ≤ p.stop)
      else decide (p.stop ≤ c.high)) = true) :
    simBody p i c s
      = (true, { s with status := .stop, events := s.events ++ [.stop c.time] }) := by
  simp only [simBody]
  rw [if_pos h]

set_option maxHeartbeats 2000000 in
theorem simBody_spec (p : SimParams) (i : ℕ) (c : Candle) (s : SimState) :
    ((simBody p i c s).2.events = s.events ∧
      (simBody p i c s).2.tpsHit = s.tpsHit ∧ (simBody p i c s).1 = false) ∨
    (∃ hc lbl, 0 < hc ∧
      (simBody p i c s).2.events
        = s.events ++ [.tp c.time (s.tpsHit + 1) (s.tpsHit + hc) lbl] ∧
      (simBody p i c s).2.tpsHit = s.tpsHit + hc ∧
      (simBody p i c s).1 = false) ∨
    ((simBody p i c s).2.events = s.events ++ [.stop c.time] ∧
      (simBody p i c s).2.tpsHit = s.tpsHit ∧ (simBody p i c s).1 = true) ∨
    ((simBody p i c s).2.events = s.events ++ [.exit c.time] ∧
      (simBody p i c s).2.tpsHit = s.tpsHit ∧ (simBody p i c s).1 = true) := by
  simp only [simBody]
  generalize ((p.targetPrices.drop s.nextTargetIdx).takeWhile
    (fun t => if p.isLong then decide (t ≤ c.high) else decide (c.low ≤ t))).length = k
  repeat' split
  all_goals first
    | exact Or.inl ⟨rfl, rfl, rfl⟩
    | exact Or.inr (Or.inr (Or.inl ⟨rfl, rfl, rfl⟩))
    | exact Or.inr (Or.inr (Or.inr ⟨rfl, rfl, rfl⟩))
    | exact Or.inr (Or.inl ⟨_, _, by assumption, rfl, rfl, rfl⟩)
    | (exfalso; simp_all [lt_irrefl])


theorem dropLast_terminal_filter_le_one (l : List TradePlanEvent)
    (h : ∀ e ∈ l.dropLast, isTerminalEvent e = false) :
    (l.filter (fun e => isTerminalEvent e)).length ≤ 1 := by
  rcases List.eq_nil_or_concat l with rfl | ⟨l2, a, rfl⟩
  · simp
  · rw [List.concat_eq_append] at h ⊢
    rw [List.dropLast_concat] at h
    rw [List.filter_append]
    have h2 : l2.filter (fun e => isTerminalEvent e) = [] := by
      rw [List.filter_eq_nil]
      intro e he
      simp [h e he]
    rw [h2, List.nil_append]
    cases hta : isTerminalEvent a <;> simp [List.filter, hta]

theorem pairwise_enum_time (candles : List Candle)
    (h : List.Pairwise (fun a b : Candle => a.time ≤ b.time) candles) :
    List.Pairwise (fun a b : ℕ × Candle => a.2.time ≤ b.2.time) candles.enum := by
  rw [List.pairwise_iff_getElem] at h ⊢
  intro i j hi hj hij
  simp only [List.enum_length] at hi hj
  simp only [List.getElem_enum]
  exact h i j hi hj hij

theorem simLoop_inv (p : SimParams) :
    ∀ (pending : List (ℕ × Candle)) (s : SimState),
      List.Pairwise (fun a b : ℕ × Candle => a.2.time ≤ b.2.time) pending →
      (∀ e ∈ s.events, ∀ ic ∈ pending, eventTime e ≤ ic.2.time) →
      List.Pairwise (fun e1 e2 => eventTime e1 ≤ eventTime e2) s.events →
      (∀ e ∈ s.events, isTerminalEvent e = false) →
      List.Pairwise tpLt s.events →
      (∀ e ∈ s.events, ∀ ft : ℕ × ℕ, tpRange e = some ft →
        ft.1 ≤ ft.2 ∧ ft.2 ≤ s.tpsHit) →
      List.Pairwise (fun e1 e2 => eventTime e1 ≤ eventTime e2)
          (simLoop p pending s).events ∧
        List.Pairwise tpLt (simLoop p pending s).events ∧
        (∀ e ∈ (simLoop p pending s).events.dropLast, isTerminalEvent e = false) ∧
        s.tpsHit ≤ (simLoop p pending s).tpsHit ∧
        (∀ e ∈ (simLoop p pending s).events, ∀ ft : ℕ × ℕ, tpRange e = some ft →
          ft.1 ≤ ft.2 ∧ ft.2 ≤ (simLoop p pending s).tpsHit) := by
  intro pending
  induction pending with
  | nil =>
    intro s _ _ hsort hterm hchain hbound
    simp only [simLoop]
    exact ⟨hsort, hchain, fun e he => hterm e (List.dropLast_subset _ he),
      le_refl _, hbound⟩
  | cons ic rest ih =>
    obtain ⟨i, c⟩ := ic
    intro s hpend hdom hsort hterm hchain hbound
    have hrest := List.pairwise_cons.1 hpend
    simp only [simLoop]
    rcases simBody_spec p i c s with ⟨hev, hhit, hbr⟩ | ⟨hc, lbl, hkpos, hev, hhit, hbr⟩
      | ⟨hev, hhit, hbr⟩ | ⟨hev, hhit, hbr⟩
    · rw [hbr]
      simp only [Bool.false_eq_true, if_false]
      obtain ⟨g1, g2, g3, g4, g5⟩ := ih (simBody p i c s).2 hrest.2
        (by
          intro e he ic2 hic2
          rw [hev] at he
          exact hdom e he ic2 (List.mem_cons_of_mem _ hic2))
        (by rw [hev]; exact hsort)
        (by rw [hev]; exact hterm)
        (by rw [hev]; exact hchain)
        (by rw [hev, hhit]; exact hbound)
      rw [hhit] at g4
      exact ⟨g1, g2, g3, g4, g5⟩
    · rw [hbr]
      simp only [Bool.false_eq_true, if_false]
      obtain ⟨g1, g2, g3, g4, g5⟩ := ih (simBody p i c s).2 hrest.2
        (by
          intro e he ic2 hic2
          rw [hev] at he
          rcases List.mem_append.1 he with h | h
          · exact hdom e h ic2 (List.mem_cons_of_mem _ hic2)
          · rw [List.mem_singleton] at h
            subst h
            simpa [eventTime] using hrest.1 ic2 hic2)
        (by
          rw [hev]
          apply List.pairwise_append.2
          refine ⟨hsort, by simp, ?_⟩
          intro e he e2 he2
          rw [List.mem_singleton] at he2
          subst he2
          simpa [eventTime] using hdom e he (i, c) (List.mem_cons_self _ _))
        (by
          rw [hev]
          intro e he
          rcases List.mem_append.1 he with h | h
          · exact hterm e h
          · rw [List.mem_singleton] at h
            subst h
            rfl)
        (by
          rw [hev]
          apply List.pairwise_append.2
          refine ⟨hchain, by simp [tpLt], ?_⟩
          intro e he e2 he2
          rw [List.mem_singleton] at he2
          subst he2
          intro ft1 ft2 h1 h2
          simp only [tpRange, Option.some.injEq] at h2
          have hb := (hbound e he ft1 h1).2
          subst h2
          show ft1.2 < s.tpsHit + 1
          omega)
        (by
          rw [hev, hhit]
          intro e he ft hft
          rcases List.mem_append.1 he with h | h
          · have hb := hbound e h ft hft
            omega
          · rw [List.mem_singleton] at h
            subst h
            simp only [tpRange, Option.some.injEq] at hft
            subst hft
            refine ⟨?_, ?_⟩
            · show s.tpsHit + 1 ≤ s.tpsHit + hc
              omega
            · show s.tpsHit + hc ≤ s.tpsHit + hc
              exact le_refl _)
      rw [hhit] at g4
      exact ⟨g1, g2, g3, le_trans (Nat.le_add_right _ _) g4, g5⟩
    · rw [hbr, if_pos rfl]
      refine ⟨?_, ?_, ?_, ?_, ?_⟩
      · rw [hev]
        apply List.pairwise_append.2
        refine ⟨hsort, by simp, ?_⟩
        intro e he e2 he2
        rw [List.mem_singleton] at he2
        subst he2
        simpa [eventTime] using hdom e he (i, c) (List.mem_cons_self _ _)
      · rw [hev]
        apply List.pairwise_append.2
        refine ⟨hchain, by simp [tpLt], ?_⟩
        intro e he e2 he2
        rw [List.mem_singleton] at he2
        subst he2
        intro ft1 ft2 h1 h2
        simp [tpRange] at h2
      · rw [hev, List.dropLast_concat]
        exact hterm
      · exact le_of_eq hhit.symm
      · rw [hev, hhit]
        intro e he ft hft
        rcases List.mem_append.1 he with h | h
        · exact hbound e h ft hft
        · rw [List.mem_singleton] at h
          subst h
          simp [tpRange] at hft
    · rw [hbr, if_pos rfl]
      refine ⟨?_, ?_, ?_, ?_, ?_⟩
      · rw [hev]
        apply List.pairwise_append.2
        refine ⟨hsort, by simp, ?_⟩
        intro e he e2 he2
        rw [List.mem_singleton] at he2
        subst he2
        simpa [eventTime] using hdom e he (i, c) (List.mem_cons_self _ _)
      · rw [hev]
        apply List.pairwise_append.2
        refine ⟨hchain, by simp [tpLt], ?_⟩
        intro e he e2 he2
        rw [List.mem_singleton] at he2
        subst he2
        intro ft1 ft2 h1 h2
        simp [tpRange] at h2
      · rw [hev, List.dropLast_concat]
        exact hterm
      · exact le_of_eq hhit.symm
      · rw [hev, hhit]
        intro e he ft hft
        rcases List.mem_append.1 he with h | h
        · exact hbound e h ft hft
        · rw [List.mem_singleton] at h
          subst h
          simp [tpRange] at hft


theorem simLoop_tpsHit_mono (p : SimParams) :
    ∀ (pending : List (ℕ × Candle)) (s : SimState),
      s.tpsHit ≤ (simLoop p pending s).tpsHit := by
  intro pending
  induction pending with
  | nil =>
    intro s
    simp only [simLoop]
    exact le_refl _
  | cons ic rest ih =>
    obtain ⟨i, c⟩ := ic
    intro s
    simp only [simLoop]
    rcases simBody_spec p i c s with ⟨_, hhit, hbr⟩ | ⟨hc, lbl, _, _, hhit, hbr⟩
      | ⟨_, hhit, hbr⟩ | ⟨_, hhit, hbr⟩
    · rw [hbr]
      simp only [Bool.false_eq_true, if_false]
      exact le_of_eq hhit.symm |>.trans (ih _)
    · rw [hbr]
      simp only [Bool.false_eq_true, if_false]
      exact le_trans (by omega : s.tpsHit ≤ s.tpsHit + hc) (le_of_eq hhit.symm |>.trans (ih _))
    · rw [hbr, if_pos rfl]
      exact le_of_eq hhit.symm
    · rw [hbr, if_pos rfl]
      exact le_of_eq hhit.symm

/-- C4: for a chronologically ordered candle series, the trade-plan
simulator's event stream has non-decreasing times and strictly progressing
TP counter ranges; no terminal event occurs before the last position (hence
at most one terminal event, and the simulation ends when it occurs); the bar
loop never decreases `tpsHit`; and a bar touching the stop produces the STOP
break immediately, before any target is examined, so STOP wins same-bar
ties. -/
theorem simulateTradePlan_invariants (signal : Signal) (candles : List Candle)
    (emaValues : List (Option ℚ)) (tpMultipliers : List ℚ)
    (confirmBars maxHoldBars : ℕ) (requireTpForExit : Bool)
    (hsorted : List.Pairwise (fun a b : Candle => a.time ≤ b.time) candles) :
    List.Pairwise (fun e1 e2 => eventTime e1 ≤ eventTime e2)
      (simulateTradePlan signal candles emaValues tpMultipliers confirmBars
        maxHoldBars requireTpForExit).events ∧
    List.Pairwise tpLt
      (simulateTradePlan signal candles emaValues tpMultipliers confirmBars
        maxHoldBars requireTpForExit).events ∧
    (∀ e ∈ (simulateTradePlan signal candles emaValues tpMultipliers confirmBars
        maxHoldBars requireTpForExit).events.dropLast,
      isTerminalEvent e = false) ∧
    ((simulateTradePlan signal candles emaValues tpMultipliers confirmBars
        maxHoldBars requireTpForExit).events.filter
          (fun e => isTerminalEvent e)).length ≤ 1 ∧
    (∀ (p : SimParams) (pending : List (ℕ × Candle)) (st : SimState),
      st.tpsHit ≤ (simLoop p pending st).tpsHit) ∧
    (∀ (p : SimParams) (i : ℕ) (c : Candle) (rest : List (ℕ × Candle))
        (st : SimState),
      (if p.isLong then decide (c.low ≤ p.stop)
        else decide (p.stop ≤ c.high)) = true →
      simLoop p ((i, c) :: rest) st
        = { st with
            status := TradePlanStatus.stop
            events := st.events ++ [TradePlanEvent.stop c.time] }) := by
  have hmono := simLoop_tpsHit_mono
  have hstep : ∀ (p : SimParams) (i : ℕ) (c : Candle)
      (rest : List (ℕ × Candle)) (st : SimState),
      (if p.isLong then decide (c.low ≤ p.stop)
        else decide (p.stop ≤ c.high)) = true →
      simLoop p ((i, c) :: rest) st
        = { st with
            status := TradePlanStatus.stop
            events := st.events ++ [TradePlanEvent.stop c.time] } := by
    intro p i c rest st h
    simp only [simLoop, simBody_stop p i c st h, if_true]
  simp only [simulateTradePlan]
  split_ifs with hg1 hg2
  · exact ⟨by simp, by simp, by simp, by simp, hmono, hstep⟩
  · exact ⟨by simp, by simp, by simp, by simp, hmono, hstep⟩
  · obtain ⟨g1, g2, g3, _, _⟩ := simLoop_inv
      ⟨signal.side == Side.long, signal.stop,
        (computeRTargets signal tpMultipliers).map (·.price), emaValues,
        max 1 confirmBars, requireTpForExit⟩
      (((candles.enum).drop
          (candles.findIdx (fun c => decide (signal.timestamp ≤ c.time)) + 1)).take
        (min (candles.length - 1)
            (candles.findIdx (fun c => decide (signal.timestamp ≤ c.time))
              + max 1 maxHoldBars)
          - candles.findIdx (fun c => decide (signal.timestamp ≤ c.time))))
      ⟨0, 0, 0, -1, .open_, []⟩
      ((pairwise_enum_time candles hsorted).sublist
        ((List.take_sublist _ _).trans (List.drop_sublist _ _)))
      (by intro e he; simp at he)
      List.Pairwise.nil
      (by intro e he; simp at he)
      List.Pairwise.nil
      (by intro e he; simp at he)
    exact ⟨g1, g2, g3, dropLast_terminal_filter_le_one _ g3, hmono, hstep⟩

theorem simulateTradePlan_invariants_witness :
    List.Pairwise (fun a b : Candle => a.time ≤ b.time) c5Candles ∧
    List.Pairwise (fun e1 e2 => eventTime e1 ≤ eventTime e2)
      (simulateTradePlan c5Signal c5Candles [] [1] 1 5 false).events ∧
    ((simulateTradePlan c5Signal c5Candles [] [1] 1 5 false).events.filter
      (fun e => isTerminalEvent e)).length ≤ 1 :=
  ⟨by decide,
    (simulateTradePlan_invariants c5Signal c5Candles [] [1] 1 5 false
      (by decide)).1,
    (simulateTradePlan_invariants c5Signal c5Candles [] [1] 1 5 false
      (by decide)).2.2.2.1⟩

end TradingBot
